import Mathlib

/-!
# Verification of the SagaPay Go SDK core

A shallow embedding of the SagaPay Go SDK (client.go, types.go, webhook.go)
together with proofs about the embedded operations.

Conventions of the embedding:
* A Go `string` is modelled as a `List Char` (`GoStr`), a sequence of Unicode
  scalar values; a Go `[]byte` is a `List Nat` with entries below 256 (`Bytes`).
* Machine words in SHA-256 are `Nat` reduced mod `2^32` at every operation.
* Fallible Go functions returning `(T, error)` become `Except GoErr T` /
  `Option`-valued functions; a Go `error` value is either a message string or
  a structured `*APIError`, mirrored by the `GoErr` inductive.
* The HTTP transport is an explicit oracle argument
  `RequestData → TransportResult`, so "no network call happens" is expressed
  as independence of the result from the oracle.
-/

set_option maxRecDepth 8192

namespace SagaPay

/-- Go `string` (sequence of Unicode scalar values). -/
abbrev GoStr := List Char

/-- Go `[]byte`: a list of byte values (each `< 256`). -/
abbrev Bytes := List Nat

/-- Coerce a Lean string literal into the `GoStr` model. -/
def gs (s : String) : GoStr := s.data

/-! ## 32-bit word arithmetic (Go `uint32` semantics) -/

/-- Truncate to 32 bits. -/
def w32 (n : Nat) : Nat := n % 4294967296

/-- 32-bit addition. -/
def wadd (a b : Nat) : Nat := w32 (a + b)

/-- 32-bit xor. -/
def wxor (a b : Nat) : Nat := Nat.xor a b

/-- 32-bit and. -/
def wand (a b : Nat) : Nat := Nat.land a b

/-- 32-bit complement. -/
def wnot (a : Nat) : Nat := Nat.xor a 4294967295

/-- Rotate a 32-bit word right by `n` bits. -/
def rotr (n x : Nat) : Nat :=
  w32 (Nat.lor (Nat.shiftRight x n) (Nat.shiftLeft x (32 - n)))

/-- Logical shift right. -/
def shr (n x : Nat) : Nat := Nat.shiftRight x n

/-! ## SHA-256 (FIPS 180-4), as used by Go `crypto/sha256` -/

/-- The 64 SHA-256 round constants. -/
def sha256K : List Nat :=
  [1116352408, 1899447441, 3049323471, 3921009573, 961987163, 1508970993,
   2453635748, 2870763221, 3624381080, 310598401, 607225278, 1426881987,
   1925078388, 2162078206, 2614888103, 3248222580, 3835390401, 4022224774,
   264347078, 604807628, 770255983, 1249150122, 1555081692, 1996064986,
   2554220882, 2821834349, 2952996808, 3210313671, 3336571891, 3584528711,
   113926993, 338241895, 666307205, 773529912, 1294757372, 1396182291,
   1695183700, 1986661051, 2177026350, 2456956037, 2730485921, 2820302411,
   3259730800, 3345764771, 3516065817, 3600352804, 4094571909, 275423344,
   430227734, 506948616, 659060556, 883997877, 958139571, 1322822218,
   1537002063, 1747873779, 1955562222, 2024104815, 2227730452, 2361852424,
   2428436474, 2756734187, 3204031479, 3329325298]

/-- SHA-256 working state: eight 32-bit words. -/
structure Sha256State where
  a : Nat
  b : Nat
  c : Nat
  d : Nat
  e : Nat
  f : Nat
  g : Nat
  h : Nat
deriving DecidableEq, Repr

/-- Initial SHA-256 hash value. -/
def sha256H0 : Sha256State :=
  ⟨1779033703, 3144134277, 1013904242, 2773480762, 1359893119, 2600822924, 528734635, 1541459225⟩

/-- `Σ₀` of FIPS 180-4. -/
def bigSigma0 (x : Nat) : Nat := wxor (rotr 2 x) (wxor (rotr 13 x) (rotr 22 x))

/-- `Σ₁` of FIPS 180-4. -/
def bigSigma1 (x : Nat) : Nat := wxor (rotr 6 x) (wxor (rotr 11 x) (rotr 25 x))

/-- `σ₀` of FIPS 180-4. -/
def smallSigma0 (x : Nat) : Nat := wxor (rotr 7 x) (wxor (rotr 18 x) (shr 3 x))

/-- `σ₁` of FIPS 180-4. -/
def smallSigma1 (x : Nat) : Nat := wxor (rotr 17 x) (wxor (rotr 19 x) (shr 10 x))

/-- `Ch(e,f,g) = (e ∧ f) ⊕ (¬e ∧ g)`. -/
def shaCh (e f g : Nat) : Nat := wxor (wand e f) (wand (wnot e) g)

/-- `Maj(a,b,c)`. -/
def shaMaj (a b c : Nat) : Nat := wxor (wand a b) (wxor (wand a c) (wand b c))

/-- Message-schedule expansion: given the sliding window of the previous 16
words (oldest first), produce the next `n` schedule words. -/
def sha256Schedule : Nat → List Nat → List Nat
  | 0, _ => []
  | n + 1, w0 :: w1 :: w2 :: w3 :: w4 :: w5 :: w6 :: w7 :: w8 :: w9 :: w10 :: w11 :: w12 :: w13 :: w14 :: w15 :: [] =>
    let next := w32 (smallSigma1 w14 + w9 + smallSigma0 w1 + w0)
    next :: sha256Schedule n (w1 :: w2 :: w3 :: w4 :: w5 :: w6 :: w7 :: w8 :: w9 :: w10 :: w11 :: w12 :: w13 :: w14 :: w15 :: next :: [])
  | _ + 1, _ => []

/-- One round of the SHA-256 compression function. -/
def sha256Round (st : Sha256State) (kw : Nat × Nat) : Sha256State :=
  let t1 := w32 (st.h + bigSigma1 st.e + shaCh st.e st.f st.g + kw.1 + kw.2)
  let t2 := w32 (bigSigma0 st.a + shaMaj st.a st.b st.c)
  ⟨wadd t1 t2, st.a, st.b, st.c, wadd st.d t1, st.e, st.f, st.g⟩

/-- Process one 512-bit block (given as 16 big-endian 32-bit words). -/
def sha256Block (hv : Sha256State) (w16 : List Nat) : Sha256State :=
  let w := w16 ++ sha256Schedule 48 w16
  let fin := (sha256K.zip w).foldl (fun st kw => sha256Round st (kw.1, kw.2)) hv
  ⟨wadd hv.a fin.a, wadd hv.b fin.b, wadd hv.c fin.c, wadd hv.d fin.d,
   wadd hv.e fin.e, wadd hv.f fin.f, wadd hv.g fin.g, wadd hv.h fin.h⟩

/-- Group bytes into big-endian 32-bit words (input length a multiple of 4). -/
def bytesToWordsBE : Bytes → List Nat
  | a :: b :: c :: d :: rest => (a * 16777216 + b * 65536 + c * 256 + d) :: bytesToWordsBE rest
  | _ => []

/-- Fold the compression function over consecutive 16-word blocks. -/
def sha256Process (hv : Sha256State) : List Nat → Sha256State
  | w0 :: w1 :: w2 :: w3 :: w4 :: w5 :: w6 :: w7 :: w8 :: w9 :: w10 :: w11 :: w12 :: w13 :: w14 :: w15 :: rest =>
    sha256Process (sha256Block hv (w0 :: w1 :: w2 :: w3 :: w4 :: w5 :: w6 :: w7 :: w8 :: w9 :: w10 :: w11 :: w12 :: w13 :: w14 :: w15 :: [])) rest
  | _ => hv

/-- Big-endian bytes of a 64-bit length value. -/
def len64BE (n : Nat) : Bytes :=
  [n / 72057594037927936 % 256, n / 281474976710656 % 256, n / 1099511627776 % 256,
   n / 4294967296 % 256, n / 16777216 % 256, n / 65536 % 256, n / 256 % 256, n % 256]

/-- SHA-256 padding: append `0x80`, zeros, and the 64-bit big-endian bit length. -/
def sha256Pad (msg : Bytes) : Bytes :=
  let l := msg.length
  let zeros := (56 + 64 - (l + 1) % 64) % 64
  msg ++ 128 :: List.replicate zeros 0 ++ len64BE (l * 8)

/-- 4 big-endian bytes of a 32-bit word. -/
def wordBytesBE (n : Nat) : Bytes := [n / 16777216 % 256, n / 65536 % 256, n / 256 % 256, n % 256]

/-- SHA-256 digest (32 bytes) of a byte string. -/
def sha256 (msg : Bytes) : Bytes :=
  let hv := sha256Process sha256H0 (bytesToWordsBE (sha256Pad msg))
  wordBytesBE hv.a ++ wordBytesBE hv.b ++ wordBytesBE hv.c ++ wordBytesBE hv.d ++
  wordBytesBE hv.e ++ wordBytesBE hv.f ++ wordBytesBE hv.g ++ wordBytesBE hv.h

/-! ## HMAC-SHA256 (Go `crypto/hmac` with `sha256.New`) -/

/-- Normalize the key: hash if longer than the 64-byte block, then zero-pad. -/
def hmacKeyPad (key : Bytes) : Bytes :=
  let k := if key.length > 64 then sha256 key else key
  k ++ List.replicate (64 - k.length) 0

/-- HMAC-SHA256 digest of `msg` under `key`. -/
def hmacSha256 (key msg : Bytes) : Bytes :=
  let k := hmacKeyPad key
  let inner := sha256 ((k.map (fun b => Nat.xor b 54)) ++ msg)
  sha256 ((k.map (fun b => Nat.xor b 92)) ++ inner)

/-- Lowercase hex digit characters, as used by Go `encoding/hex`. -/
def hexDigitChar (d : Nat) : Char :=
  Char.ofNat (if d < 10 then 48 + d else 87 + d)

/-- Lowercase hex encoding of a byte string (Go `hex.EncodeToString`). -/
def hexEncode : Bytes → GoStr
  | [] => []
  | b :: rest => hexDigitChar (b / 16 % 16) :: hexDigitChar (b % 16) :: hexEncode rest

/-! ## UTF-8 (Go `[]byte(string)` conversion) -/

/-- UTF-8 encoding of one Unicode scalar value. -/
def utf8EncodeChar (c : Char) : Bytes :=
  let n := c.toNat
  if n < 128 then [n]
  else if n < 2048 then [192 + n / 64, 128 + n % 64]
  else if n < 65536 then [224 + n / 4096, 128 + n / 64 % 64, 128 + n % 64]
  else [240 + n / 262144, 128 + n / 4096 % 64, 128 + n / 64 % 64, 128 + n % 64]

/-- UTF-8 encoding of a string (Go `[]byte(s)`). -/
def utf8Encode : GoStr → Bytes
  | [] => []
  | c :: rest => utf8EncodeChar c ++ utf8Encode rest

/-- The Unicode replacement character `U+FFFD`, produced by Go when it meets
invalid UTF-8 or an unpaired surrogate escape. -/
def replChar : Char := Char.ofNat 65533

/-- UTF-8 decoding with replacement of invalid sequences, the behaviour of
Go's rune iteration (`unicode/utf8.DecodeRune`); fuelled (each step consumes
at least one byte, so `length + 1` fuel always suffices). -/
def utf8DecodeAux : Nat → Bytes → GoStr
  | 0, _ => []
  | _, [] => []
  | fuel + 1, b :: rest =>
    if b < 128 then Char.ofNat b :: utf8DecodeAux fuel rest
    else if 194 ≤ b ∧ b ≤ 223 then
      match rest with
      | b2 :: rest2 =>
        if 128 ≤ b2 ∧ b2 ≤ 191 then Char.ofNat ((b - 192) * 64 + (b2 - 128)) :: utf8DecodeAux fuel rest2
        else replChar :: utf8DecodeAux fuel rest
      | [] => [replChar]
    else if 224 ≤ b ∧ b ≤ 239 then
      match rest with
      | b2 :: b3 :: rest3 =>
        let v := (b - 224) * 4096 + (b2 - 128) * 64 + (b3 - 128)
        if 128 ≤ b2 ∧ b2 ≤ 191 ∧ 128 ≤ b3 ∧ b3 ≤ 191 ∧ 2048 ≤ v ∧ ¬(55296 ≤ v ∧ v ≤ 57343) then
          Char.ofNat v :: utf8DecodeAux fuel rest3
        else replChar :: utf8DecodeAux fuel rest
      | _ => [replChar]
    else if 240 ≤ b ∧ b ≤ 244 then
      match rest with
      | b2 :: b3 :: b4 :: rest4 =>
        let v := (b - 240) * 262144 + (b2 - 128) * 4096 + (b3 - 128) * 64 + (b4 - 128)
        if 128 ≤ b2 ∧ b2 ≤ 191 ∧ 128 ≤ b3 ∧ b3 ≤ 191 ∧ 128 ≤ b4 ∧ b4 ≤ 191 ∧ 65536 ≤ v ∧ v ≤ 1114111 then
          Char.ofNat v :: utf8DecodeAux fuel rest4
        else replChar :: utf8DecodeAux fuel rest
      | _ => [replChar]
    else replChar :: utf8DecodeAux fuel rest

/-- UTF-8 decoding of a whole byte string. -/
def utf8Decode (bs : Bytes) : GoStr := utf8DecodeAux (bs.length + 1) bs

/-! ## JSON values and the decoder (Go `encoding/json` input side) -/

/-- A decoded JSON value. Go decodes numbers into `float64` when the target is
untyped; since no claim inspects a numeric value, the model keeps the literal
text of the number instead of a floating-point approximation. -/
inductive Jv where
  | null
  | bool (b : Bool)
  | num (lit : GoStr)
  | str (s : GoStr)
  | arr (elems : List Jv)
  | obj (members : List (GoStr × Jv))

/-- JSON whitespace. -/
def isJsonWs (c : Char) : Bool := c == ' ' || c == '\t' || c == '\n' || c == '\r'

/-- Skip JSON whitespace. -/
def skipWs (s : GoStr) : GoStr := s.dropWhile isJsonWs

/-- ASCII decimal digit test. -/
def isDigit (c : Char) : Bool := '0' ≤ c && c ≤ '9'

/-- Value of a hex digit (either case), as accepted by the JSON `\uXXXX` form. -/
def hexVal (c : Char) : Option Nat :=
  if '0' ≤ c ∧ c ≤ '9' then some (c.toNat - 48)
  else if 'a' ≤ c ∧ c ≤ 'f' then some (c.toNat - 87)
  else if 'A' ≤ c ∧ c ≤ 'F' then some (c.toNat - 55)
  else none

/-- The single-character JSON escapes. -/
def unescapeSimple (c : Char) : Option Char :=
  if c = '"' then some '"'
  else if c = '\\' then some '\\'
  else if c = '/' then some '/'
  else if c = 'b' then some (Char.ofNat 8)
  else if c = 'f' then some (Char.ofNat 12)
  else if c = 'n' then some (Char.ofNat 10)
  else if c = 'r' then some (Char.ofNat 13)
  else if c = 't' then some (Char.ofNat 9)
  else none

/-- Parse the remainder of a JSON string literal (the opening quote already
consumed), returning the decoded content and the input after the closing
quote. Mirrors Go's `unquote`: raw control characters are rejected, `\uXXXX`
surrogate pairs are combined, unpaired surrogates become `U+FFFD`. -/
def parseStrAux : Nat → GoStr → Option (GoStr × GoStr)
  | 0, _ => none
  | _ + 1, [] => none
  | fuel + 1, c :: rest =>
    if c = '"' then some ([], rest)
    else if c = '\\' then
      match rest with
      | [] => none
      | e :: rest2 =>
        if e = 'u' then
          match rest2 with
          | h1 :: h2 :: h3 :: h4 :: rest3 =>
            match hexVal h1, hexVal h2, hexVal h3, hexVal h4 with
            | some d1, some d2, some d3, some d4 =>
              let code := d1 * 4096 + d2 * 256 + d3 * 16 + d4
              if 55296 ≤ code ∧ code ≤ 56319 then
                -- high surrogate: try to combine with a following low surrogate
                let fallback := (parseStrAux fuel rest3).map (fun tr => (replChar :: tr.1, tr.2))
                match rest3 with
                | b1 :: b2 :: g1 :: g2 :: g3 :: g4 :: rest4 =>
                  if b1 = '\\' ∧ b2 = 'u' then
                    match hexVal g1, hexVal g2, hexVal g3, hexVal g4 with
                    | some e1, some e2, some e3, some e4 =>
                      let lo := e1 * 4096 + e2 * 256 + e3 * 16 + e4
                      if 56320 ≤ lo ∧ lo ≤ 57343 then
                        (parseStrAux fuel rest4).map (fun tr =>
                          (Char.ofNat (65536 + (code - 55296) * 1024 + (lo - 56320)) :: tr.1, tr.2))
                      else fallback
                    | _, _, _, _ => fallback
                  else fallback
                | _ => fallback
              else if 56320 ≤ code ∧ code ≤ 57343 then
                (parseStrAux fuel rest3).map (fun tr => (replChar :: tr.1, tr.2))
              else
                (parseStrAux fuel rest3).map (fun tr => (Char.ofNat code :: tr.1, tr.2))
            | _, _, _, _ => none
          | _ => none
        else
          match unescapeSimple e with
          | some d => (parseStrAux fuel rest2).map (fun tr => (d :: tr.1, tr.2))
          | none => none
    else if c.toNat < 32 then none
    else (parseStrAux fuel rest).map (fun tr => (c :: tr.1, tr.2))

/-- String-literal body parser with its always-sufficient fuel (one unit per
decoded character). -/
def parseStr (s : GoStr) : Option (GoStr × GoStr) := parseStrAux (s.length + 1) s

/-- Exponent part of a JSON number literal (possibly empty). -/
def numExpPart (acc : GoStr) (s : GoStr) : Option (GoStr × GoStr) :=
  match s with
  | c :: rest =>
    if c = 'e' ∨ c = 'E' then
      let (sgn, s2) :=
        match rest with
        | d :: r2 => if d = '+' ∨ d = '-' then ([d], r2) else (([] : GoStr), rest)
        | [] => ([], rest)
      let ds := s2.takeWhile isDigit
      if ds = [] then none else some (acc ++ c :: sgn ++ ds, s2.drop ds.length)
    else some (acc, s)
  | [] => some (acc, s)

/-- Fraction part of a JSON number literal (possibly empty), then exponent. -/
def numFracPart (acc : GoStr) (s : GoStr) : Option (GoStr × GoStr) :=
  match s with
  | c :: rest =>
    if c = '.' then
      let ds := rest.takeWhile isDigit
      if ds = [] then none else numExpPart (acc ++ c :: ds) (rest.drop ds.length)
    else numExpPart acc s
  | [] => numExpPart acc s

/-- Parse a JSON number literal per Go's grammar (no leading zeros, no bare
`.5`), returning its text. -/
def parseNumLit (s : GoStr) : Option (GoStr × GoStr) :=
  let (sign, s1) :=
    match s with
    | c :: rest => if c = '-' then (([c] : GoStr), rest) else (([] : GoStr), s)
    | [] => ([], s)
  match s1 with
  | [] => none
  | c :: rest =>
    if c = '0' then numFracPart (sign ++ [c]) rest
    else if isDigit c then
      let ds := rest.takeWhile isDigit
      numFracPart (sign ++ c :: ds) (rest.drop ds.length)
    else none

/-- Parse a non-empty comma-separated item sequence up to and including the
closing character `stop`. -/
def parseItems {α : Type} (item : GoStr → Option (α × GoStr)) (stop : Char) :
    Nat → GoStr → Option (List α × GoStr)
  | 0, _ => none
  | fuel + 1, s =>
    match item s with
    | none => none
    | some (a, s1) =>
      match skipWs s1 with
      | [] => none
      | c :: s3 =>
        if c = ',' then
          (parseItems item stop fuel s3).map (fun pr => (a :: pr.1, pr.2))
        else if c = stop then some ([a], s3)
        else none

/-- Parse one `"key": value` object member, `value` supplied as a parser. -/
def parseMember {α : Type} (value : GoStr → Option (α × GoStr)) (s : GoStr) :
    Option ((GoStr × α) × GoStr) :=
  match skipWs s with
  | c :: rest =>
    if c = '"' then
      match parseStr rest with
      | some (k, s1) =>
        match skipWs s1 with
        | d :: s2 =>
          if d = ':' then (value s2).map (fun pr => ((k, pr.1), pr.2))
          else none
        | [] => none
      | none => none
    else none
  | [] => none

/-- Parse one JSON value, fuelled by the nesting depth; returns the value and
the unconsumed remainder. -/
def parseVal : Nat → GoStr → Option (Jv × GoStr)
  | 0, _ => none
  | fuel + 1, s =>
    match skipWs s with
    | [] => none
    | c :: rest =>
      if c = '\x7b' then
        match skipWs rest with
        | [] => none
        | d :: r2 =>
          if d = '\x7d' then some (.obj [], r2)
          else
            (parseItems (parseMember (parseVal fuel)) '\x7d' (fuel + 1) (d :: r2)).map
              (fun pr => (.obj pr.1, pr.2))
      else if c = '[' then
        match skipWs rest with
        | [] => none
        | d :: r2 =>
          if d = ']' then some (.arr [], r2)
          else
            (parseItems (parseVal fuel) ']' (fuel + 1) (d :: r2)).map
              (fun pr => (.arr pr.1, pr.2))
      else if c = '"' then (parseStr rest).map (fun pr => (.str pr.1, pr.2))
      else if c = 't' then
        match rest with
        | 'r' :: 'u' :: 'e' :: r => some (.bool true, r)
        | _ => none
      else if c = 'f' then
        match rest with
        | 'a' :: 'l' :: 's' :: 'e' :: r => some (.bool false, r)
        | _ => none
      else if c = 'n' then
        match rest with
        | 'u' :: 'l' :: 'l' :: r => some (.null, r)
        | _ => none
      else if c = '-' ∨ isDigit c then
        (parseNumLit (c :: rest)).map (fun pr => (.num pr.1, pr.2))
      else none

/-- Parse the first JSON value of the input (the fuel `length + 1` always
suffices since each nesting level consumes at least one character). -/
def parseJsonValue (s : GoStr) : Option (Jv × GoStr) := parseVal (s.length + 1) s

/-! ## JSON string encoding (Go `encoding/json` output side, HTML escaping on) -/

/-- Encode one character of a JSON string the way Go's encoder does with its
default `SetEscapeHTML(true)`: the two-character escapes for quote, backslash,
newline, carriage return and tab; the six-character hex escapes for the other
control characters, the HTML-sensitive characters and the two Unicode line
separators; everything else verbatim. -/
def escapeChar (c : Char) : GoStr :=
  if c = '"' then ['\\', '"']
  else if c = '\\' then ['\\', '\\']
  else if c = '\n' then ['\\', 'n']
  else if c = '\r' then ['\\', 'r']
  else if c = '\t' then ['\\', 't']
  else if c.toNat < 32 then ['\\', 'u', '0', '0', hexDigitChar (c.toNat / 16), hexDigitChar (c.toNat % 16)]
  else if c = '<' then ['\\', 'u', '0', '0', '3', 'c']
  else if c = '>' then ['\\', 'u', '0', '0', '3', 'e']
  else if c = '&' then ['\\', 'u', '0', '0', '2', '6']
  else if c.toNat = 8232 then ['\\', 'u', '2', '0', '2', '8']
  else if c.toNat = 8233 then ['\\', 'u', '2', '0', '2', '9']
  else [c]

/-- Escape a whole string for JSON output. -/
def escapeStr : GoStr → GoStr
  | [] => []
  | c :: rest => escapeChar c ++ escapeStr rest

/-- A JSON string literal: quote, escaped content, quote. -/
def jstr (s : GoStr) : GoStr := '"' :: escapeStr s ++ ['"']

/-- A JSON object member `"k":"v"` with string value. -/
def jmem (k v : GoStr) : GoStr := jstr k ++ ':' :: jstr v

/-! ## Go `time.Time` (the slice visible through RFC 3339 marshalling) -/

/-- The wall-clock components of a Go `time.Time` as they appear in its JSON
form: date, time-of-day, nanoseconds, and the zone offset in minutes east of
UTC. (Monotonic-clock readings and sub-minute zone offsets do not survive
marshalling and are outside the model.) -/
structure GoTime where
  year : Nat
  month : Nat
  day : Nat
  hour : Nat
  minute : Nat
  second : Nat
  nsec : Nat
  offsetMin : Int
deriving DecidableEq, Repr

/-- The zero `time.Time`: January 1, year 1, 00:00:00 UTC. -/
def zeroGoTime : GoTime := ⟨1, 1, 1, 0, 0, 0, 0, 0⟩

/-- Decimal digit character (of `n % 10`). -/
def digitChar (n : Nat) : Char := Char.ofNat (48 + n % 10)

/-- Two zero-padded decimal digits. -/
def pad2 (n : Nat) : GoStr := [digitChar (n / 10), digitChar n]

/-- Four zero-padded decimal digits. -/
def pad4 (n : Nat) : GoStr := [digitChar (n / 1000), digitChar (n / 100), digitChar (n / 10), digitChar n]

/-- The nine decimal digits of a nanosecond count, most significant first. -/
def pad9digits (n : Nat) : List Nat :=
  [n / 100000000 % 10, n / 10000000 % 10, n / 1000000 % 10, n / 100000 % 10,
   n / 10000 % 10, n / 1000 % 10, n / 100 % 10, n / 10 % 10, n % 10]

/-- Drop trailing zeros of a digit list. -/
def dropTrailingZeros (l : List Nat) : List Nat := (l.reverse.dropWhile (· == 0)).reverse

/-- The fractional-second part of `RFC3339Nano` output: absent when zero,
otherwise a point followed by the nanosecond digits with trailing zeros
removed. -/
def formatFrac (n : Nat) : GoStr :=
  if n = 0 then [] else '.' :: (dropTrailingZeros (pad9digits n)).map digitChar

/-- The zone suffix: `Z` for UTC, otherwise `±hh:mm`. -/
def formatZone (o : Int) : GoStr :=
  if o = 0 then ['Z']
  else (if o < 0 then '-' else '+') :: pad2 (o.natAbs / 60) ++ ':' :: pad2 (o.natAbs % 60)

/-- Go `t.Format(time.RFC3339Nano)`, the form `time.Time.MarshalJSON` emits
between its quotes. -/
def formatRFC3339Nano (t : GoTime) : GoStr :=
  pad4 t.year ++ '-' :: pad2 t.month ++ '-' :: pad2 t.day ++ 'T' :: pad2 t.hour ++
  ':' :: pad2 t.minute ++ ':' :: pad2 t.second ++ formatFrac t.nsec ++ formatZone t.offsetMin

/-- Decimal digit value. -/
def digVal (c : Char) : Option Nat := if isDigit c then some (c.toNat - 48) else none

/-- Read exactly two decimal digits. -/
def read2 : GoStr → Option (Nat × GoStr)
  | a :: b :: rest =>
    match digVal a, digVal b with
    | some x, some y => some (x * 10 + y, rest)
    | _, _ => none
  | _ => none

/-- Read exactly four decimal digits. -/
def read4 : GoStr → Option (Nat × GoStr)
  | a :: b :: c :: d :: rest =>
    match digVal a, digVal b, digVal c, digVal d with
    | some x, some y, some z, some w => some (x * 1000 + y * 100 + z * 10 + w, rest)
    | _, _, _, _ => none
  | _ => none

/-- Require a specific next character. -/
def expectChar (c : Char) : GoStr → Option GoStr
  | d :: rest => if d = c then some rest else none
  | [] => none

/-- Numeric value of a digit string (most significant first). -/
def digitsToNat (ds : GoStr) : Nat := ds.foldl (fun a c => a * 10 + (c.toNat - 48)) 0

/-- Optional fractional seconds: a point followed by one to nine digits,
scaled to nanoseconds. -/
def parseFracRFC (s : GoStr) : Option (Nat × GoStr) :=
  match s with
  | c :: rest =>
    if c = '.' then
      let ds := rest.takeWhile isDigit
      if 1 ≤ ds.length ∧ ds.length ≤ 9 then
        some (digitsToNat ds * 10 ^ (9 - ds.length), rest.drop ds.length)
      else none
    else some (0, s)
  | [] => some (0, s)

/-- Zone suffix: `Z` or `±hh:mm` with `hh ≤ 23`, `mm ≤ 59`. -/
def parseZoneRFC (s : GoStr) : Option (Int × GoStr) :=
  match s with
  | c :: rest =>
    if c = 'Z' then some (0, rest)
    else if c = '+' ∨ c = '-' then
      match read2 rest with
      | some (hh, s1) =>
        match s1 with
        | d :: s2 =>
          if d = ':' then
            match read2 s2 with
            | some (mm, s3) =>
              if hh ≤ 23 ∧ mm ≤ 59 then
                some ((if c = '-' then -(((hh * 60 + mm : Nat)) : Int) else (((hh * 60 + mm : Nat)) : Int)), s3)
              else none
            | none => none
          else none
        | [] => none
      | none => none
    else none
  | [] => none

/-- Leap-year rule of the Gregorian calendar (Go `time`). -/
def isLeapYear (y : Nat) : Bool := y % 4 == 0 && (y % 100 != 0 || y % 400 == 0)

/-- Days in a month. -/
def daysInMonth (y m : Nat) : Nat :=
  if m = 2 then (if isLeapYear y then 29 else 28)
  else if m = 4 ∨ m = 6 ∨ m = 9 ∨ m = 11 then 30
  else 31

/-- Strict RFC 3339 parsing as done by `time.Time.UnmarshalJSON` (Go requires
the upper-case `T`/`Z` forms and validates every component range, including
the day against the month and leap year). The whole input must be consumed. -/
def parseRFC3339 (s : GoStr) : Option GoTime :=
  match read4 s with
  | none => none
  | some (y, s1) =>
    match expectChar '-' s1 with
    | none => none
    | some s2 =>
      match read2 s2 with
      | none => none
      | some (mo, s3) =>
        match expectChar '-' s3 with
        | none => none
        | some s4 =>
          match read2 s4 with
          | none => none
          | some (d, s5) =>
            match expectChar 'T' s5 with
            | none => none
            | some s6 =>
              match read2 s6 with
              | none => none
              | some (h, s7) =>
                match expectChar ':' s7 with
                | none => none
                | some s8 =>
                  match read2 s8 with
                  | none => none
                  | some (mi, s9) =>
                    match expectChar ':' s9 with
                    | none => none
                    | some s10 =>
                      match read2 s10 with
                      | none => none
                      | some (sec, s11) =>
                        match parseFracRFC s11 with
                        | none => none
                        | some (ns, s12) =>
                          match parseZoneRFC s12 with
                          | none => none
                          | some (off, s13) =>
                            if s13 = [] ∧ 1 ≤ mo ∧ mo ≤ 12 ∧ 1 ≤ d ∧ d ≤ daysInMonth y mo ∧
                               h ≤ 23 ∧ mi ≤ 59 ∧ sec ≤ 59 then
                              some ⟨y, mo, d, h, mi, sec, ns, off⟩
                            else none

/-- The validity invariant every real `time.Time` satisfies and that
`time.Time.MarshalJSON` additionally requires of the year. Offsets are full
minutes below a day in magnitude (RFC 3339 representable). -/
def ValidGoTime (t : GoTime) : Prop :=
  1 ≤ t.month ∧ t.month ≤ 12 ∧ 1 ≤ t.day ∧ t.day ≤ daysInMonth t.year t.month ∧
  t.hour ≤ 23 ∧ t.minute ≤ 59 ∧ t.second ≤ 59 ∧ t.nsec ≤ 999999999 ∧
  t.year ≤ 9999 ∧ t.offsetMin.natAbs ≤ 1439

instance (t : GoTime) : Decidable (ValidGoTime t) := by
  unfold ValidGoTime; infer_instance

/-! ## WebhookPayload and its JSON (un)marshalling -/

/-- Go's `WebhookPayload` struct. `TransactionType`, `TransactionStatus` and
`NetworkType` are string types in the source, so the fields stay strings here;
`typ` stands for the Go field `Type` (a Lean keyword). -/
structure WebhookPayload where
  id : GoStr
  typ : GoStr
  status : GoStr
  address : GoStr
  networkType : GoStr
  amount : GoStr
  udf : GoStr
  txHash : GoStr
  timestamp : GoTime
deriving DecidableEq, Repr

/-- The zero value `json.Unmarshal` starts from. -/
def zeroWebhookPayload : WebhookPayload := ⟨[], [], [], [], [], [], [], [], zeroGoTime⟩

/-- ASCII lower-casing (all the JSON keys involved are ASCII). -/
def asciiLowerChar (c : Char) : Char :=
  if 'A' ≤ c ∧ c ≤ 'Z' then Char.ofNat (c.toNat + 32) else c

/-- Case-insensitive key comparison, Go `strings.EqualFold` restricted to the
ASCII keys that occur here. -/
def eqFold (a b : GoStr) : Bool := a.map asciiLowerChar == b.map asciiLowerChar

/-- Does JSON member key `k` select the struct field whose effective (tag)
name is `name`? Go prefers an exact match over a case-insensitive one across
all fields; because the tag names of the structs modelled here are pairwise
distinct even up to case folding, that global rule reduces to this per-field
test. -/
def keyMatches (k name : GoStr) : Bool := k == name || eqFold k name

/-- Decode a JSON value into a string-typed struct field: a string replaces
the field, `null` leaves it untouched, anything else is an unmarshal type
error. `some none` = keep, `some (some s)` = set, `none` = error. -/
def jvString? : Jv → Option (Option GoStr)
  | .str s => some (some s)
  | .null => some none
  | _ => none

/-- Decode a JSON value into a `time.Time` field (`time.Time.UnmarshalJSON`):
`null` keeps the old value, a string must parse as RFC 3339, anything else is
an error. -/
def jvTime? : Jv → Option (Option GoTime)
  | .str s => (parseRFC3339 s).map some
  | .null => some none
  | _ => none

/-- One iteration of `json.Unmarshal`'s object loop for `WebhookPayload`:
member `k : v` updates the matching field; unknown keys are ignored. -/
def payloadSetMember (p : WebhookPayload) (k : GoStr) (v : Jv) : Option WebhookPayload :=
  if keyMatches k (gs ("id")) then
    (jvString? v).map (fun o => match o with | some s => { p with id := s } | none => p)
  else if keyMatches k (gs ("type")) then
    (jvString? v).map (fun o => match o with | some s => { p with typ := s } | none => p)
  else if keyMatches k (gs ("status")) then
    (jvString? v).map (fun o => match o with | some s => { p with status := s } | none => p)
  else if keyMatches k (gs ("address")) then
    (jvString? v).map (fun o => match o with | some s => { p with address := s } | none => p)
  else if keyMatches k (gs ("networkType")) then
    (jvString? v).map (fun o => match o with | some s => { p with networkType := s } | none => p)
  else if keyMatches k (gs ("amount")) then
    (jvString? v).map (fun o => match o with | some s => { p with amount := s } | none => p)
  else if keyMatches k (gs ("udf")) then
    (jvString? v).map (fun o => match o with | some s => { p with udf := s } | none => p)
  else if keyMatches k (gs ("txHash")) then
    (jvString? v).map (fun o => match o with | some s => { p with txHash := s } | none => p)
  else if keyMatches k (gs ("timestamp")) then
    (jvTime? v).map (fun o => match o with | some t => { p with timestamp := t } | none => p)
  else some p

/-- Decode a JSON value into a `WebhookPayload` (`json.Unmarshal` semantics:
`null` leaves the zero value, an object folds its members in order, any other
value is a type error). -/
def jvToWebhookPayload : Jv → Option WebhookPayload
  | .null => some zeroWebhookPayload
  | .obj ms => ms.foldl (fun acc kv => acc.bind (fun p => payloadSetMember p kv.1 kv.2)) (some zeroWebhookPayload)
  | _ => none

/-- `json.Unmarshal(body, &payload)`: the input must be exactly one JSON
value (plus trailing whitespace). -/
def unmarshalWebhookPayload (s : GoStr) : Option WebhookPayload :=
  match parseJsonValue s with
  | some (v, rest) => if skipWs rest = [] then jvToWebhookPayload v else none
  | none => none

/-- `json.Marshal` of a `WebhookPayload`: members in declaration order,
`udf` and `txHash` omitted when empty (`omitempty`), the timestamp written as
the quoted `RFC3339Nano` rendering produced by `time.Time.MarshalJSON`. -/
def marshalWebhookPayload (p : WebhookPayload) : GoStr :=
  '\x7b' :: (jmem (gs ("id")) p.id ++ ',' :: jmem (gs ("type")) p.typ ++
  ',' :: jmem (gs ("status")) p.status ++ ',' :: jmem (gs ("address")) p.address ++
  ',' :: jmem (gs ("networkType")) p.networkType ++ ',' :: jmem (gs ("amount")) p.amount ++
  (if p.udf = [] then [] else ',' :: jmem (gs ("udf")) p.udf) ++
  (if p.txHash = [] then [] else ',' :: jmem (gs ("txHash")) p.txHash) ++
  ',' :: jstr (gs ("timestamp")) ++ ':' :: '"' :: formatRFC3339Nano p.timestamp ++ ['"']) ++ ['\x7d']

/-! ## Error values -/

/-- Go's `APIError` struct: `Error` and `Message` decode from the JSON body,
`Data` is the untyped auxiliary slot, and `Code` carries the untagged HTTP
status (its JSON tag is `-`, so it never decodes from a body). The Lean field
`error` stands for the Go field `Error`. -/
structure APIError where
  error : GoStr
  message : GoStr
  data : Option Jv
  code : Int

/-- The zero `APIError` that `json.Unmarshal` starts from. -/
def zeroAPIError : APIError := ⟨[], [], none, 0⟩

/-- A Go `error` value as this SDK produces them: either a plain message
(`errors.New` / `fmt.Errorf`) or a structured `*APIError`. -/
inductive GoErr where
  | msg (s : GoStr)
  | api (e : APIError)

/-- The `Error()` method of the error value: `APIError` formats itself as
`API error: <code> - <message>`. -/
def goErrMessage : GoErr → GoStr
  | .msg s => s
  | .api e => gs ("API error: ") ++ e.error ++ gs (" - ") ++ e.message

/-! ## The webhook handler (webhook.go) -/

/-- Go's `WebhookHandler`: holds the configured secret. -/
structure WebhookHandler where
  apiSecret : GoStr
deriving DecidableEq, Repr

/-- `NewWebhookHandler`: total, accepts any secret (including the empty
string) and never fails. -/
def NewWebhookHandler (apiSecret : GoStr) : WebhookHandler := ⟨apiSecret⟩

/-- `VerifySignature`: HMAC-SHA256 of the raw payload bytes under the UTF-8
bytes of the secret, hex-encoded and compared with the provided signature.
Go compares `[]byte(expected)` with `[]byte(signature)` via `hmac.Equal`, a
constant-time comparison that is functionally byte-slice equality, which for
UTF-8 encodings of strings is exactly string equality. -/
def VerifySignature (h : WebhookHandler) (payload : Bytes) (signature : GoStr) : Bool :=
  let expectedSignature := hexEncode (hmacSha256 (utf8Encode h.apiSecret) payload)
  expectedSignature == signature

/-- The message of the Go decode error wrapped by `ProcessWebhook` and
`HandleRequest`; the model uses one representative message for the wrapped
`json.Unmarshal` error text. -/
def payloadParseErrMsg : GoStr := gs ("failed to parse webhook payload: invalid JSON")

/-- `ProcessWebhook`: verify the signature first and fail without touching
the body when it does not match; only then `json.Unmarshal` the body. -/
def ProcessWebhook (h : WebhookHandler) (body : Bytes) (signature : GoStr) :
    Except GoErr WebhookPayload :=
  if !(VerifySignature h body signature) then
    .error (.msg (gs ("invalid webhook signature")))
  else
    match unmarshalWebhookPayload (utf8Decode body) with
    | some payload => .ok payload
    | none => .error (.msg payloadParseErrMsg)

/-! ## The HTTP-bound webhook form -/

/-- An inbound HTTP request as `HandleRequest` consumes it: its headers and
the result of `io.ReadAll(r.Body)` (which may fail with a read error whose
message is carried here). -/
structure HTTPRequest where
  headers : List (GoStr × GoStr)
  body : Except GoStr Bytes

/-- ASCII upper-casing. -/
def asciiUpperChar (c : Char) : Char :=
  if 'a' ≤ c ∧ c ≤ 'z' then Char.ofNat (c.toNat - 32) else c

/-- Valid MIME header token byte (Go `textproto.validHeaderFieldByte`). -/
def isTokenChar (c : Char) : Bool :=
  ('0' ≤ c && c ≤ '9') || ('a' ≤ c && c ≤ 'z') || ('A' ≤ c && c ≤ 'Z') ||
  (gs ("!#$%&'*+-.^_|~")).contains c || c.toNat == 96

/-- Canonicalization loop: upper-case the first letter and each letter after
a hyphen, lower-case the rest. -/
def canonMIMEAux : Bool → GoStr → GoStr
  | _, [] => []
  | upper, c :: rest =>
    (if upper then asciiUpperChar c else asciiLowerChar c) :: canonMIMEAux (c = '-') rest

/-- Go `textproto.CanonicalMIMEHeaderKey`: canonical form of a header key,
returned unchanged when it contains an invalid byte. -/
def canonicalMIMEKey (k : GoStr) : GoStr :=
  if k.all isTokenChar then canonMIMEAux true k else k

/-- `http.Header.Get`: canonical lookup of a header value, empty when absent.
(The server stores keys canonicalized; the model canonicalizes both sides.) -/
def headerGet (hs : List (GoStr × GoStr)) (k : GoStr) : GoStr :=
  match hs.find? (fun kv => canonicalMIMEKey kv.1 == canonicalMIMEKey k) with
  | some kv => kv.2
  | none => []

/-- `HandleRequest`: the signature header must be present and non-empty, then
the whole body is read, then — exactly the code of `ProcessWebhook`, which the
Go source duplicates inline — verify-then-parse. -/
def HandleRequest (h : WebhookHandler) (r : HTTPRequest) : Except GoErr WebhookPayload :=
  let signature := headerGet r.headers (gs ("x-sagapay-signature"))
  if signature = [] then .error (.msg (gs ("missing SagaPay signature in headers")))
  else
    match r.body with
    | .error e => .error (.msg (gs ("failed to read request body: ") ++ e))
    | .ok body =>
      if !(VerifySignature h body signature) then
        .error (.msg (gs ("invalid webhook signature")))
      else
        match unmarshalWebhookPayload (utf8Decode body) with
        | some payload => .ok payload
        | none => .error (.msg payloadParseErrMsg)

/-! ## Webhook response helpers -/

/-- What a webhook handler writes into the `http.ResponseWriter`. -/
structure HTTPResponse where
  status : Nat
  contentType : GoStr
  body : GoStr
deriving DecidableEq, Repr

/-- `SendSuccessResponse`: HTTP 200 with `received: true` (Go's
`json.Encoder.Encode` appends a newline). -/
def SendSuccessResponse : HTTPResponse :=
  { status := 200, contentType := gs ("application/json"),
    body := gs ("\x7b\"received\":true\x7d") ++ ['\n'] }

/-- `SendErrorResponse`: still HTTP 200 (to prevent gateway retries) with
`received: false` and the error's message. Go marshals the map with its keys
sorted, so `error` precedes `received`. -/
def SendErrorResponse (err : GoErr) : HTTPResponse :=
  { status := 200, contentType := gs ("application/json"),
    body := '\x7b' :: (jmem (gs ("error")) (goErrMessage err) ++
      ',' :: jstr (gs ("received")) ++ ':' :: gs ("false")) ++ '\x7d' :: ['\n'] }

/-! ## Go `net/url.Parse` (the slice the client construction depends on) -/

/-- A parsed URL (Go `url.URL`, the fields this SDK can observe). -/
structure GoURL where
  scheme : GoStr
  opaquePart : GoStr
  userinfo : Option GoStr
  host : GoStr
  path : GoStr
  forceQuery : Bool
  rawQuery : GoStr
  fragment : GoStr
deriving DecidableEq, Repr

/-- ASCII letter. -/
def isAlphaChar (c : Char) : Bool := ('a' ≤ c && c ≤ 'z') || ('A' ≤ c && c ≤ 'Z')

/-- ASCII letter or digit. -/
def isAlphaNum (c : Char) : Bool := isAlphaChar c || isDigit c

/-- Control byte test of `net/url` (`stringContainsCTLByte`). -/
def strContainsCTL (s : GoStr) : Bool := s.any (fun c => c.toNat < 32 || c.toNat == 127)

/-- Split at the first occurrence of `c`: `(before, some after)` when found,
`(s, none)` otherwise. -/
def cutFirst (c : Char) : GoStr → GoStr × Option GoStr
  | [] => ([], none)
  | d :: rest =>
    if d = c then ([], some rest)
    else
      let pr := cutFirst c rest
      (d :: pr.1, pr.2)

/-- Split at the last occurrence of `c`. -/
def cutLast (c : Char) (s : GoStr) : Option (GoStr × GoStr) :=
  match cutFirst c s.reverse with
  | (_, none) => none
  | (revAfter, some revBefore) => some (revBefore.reverse, revAfter.reverse)

/-- Go `getScheme`: strip a leading `scheme:`. Yields the (unlowered) scheme
and the remainder, the pair `([], s)` when there is no scheme, or the
`missing protocol scheme` error when the colon comes first. -/
def getSchemeAux (acc : GoStr) : GoStr → Except GoStr (GoStr × GoStr)
  | [] => .ok ([], acc.reverse)
  | c :: rest =>
    if isAlphaChar c then getSchemeAux (c :: acc) rest
    else if isDigit c ∨ c = '+' ∨ c = '-' ∨ c = '.' then
      (if acc = [] then .ok ([], c :: rest) else getSchemeAux (c :: acc) rest)
    else if c = ':' then
      (if acc = [] then .error (gs ("missing protocol scheme")) else .ok (acc.reverse, rest))
    else .ok ([], acc.reverse ++ c :: rest)

/-- Entry point of the scheme scanner. -/
def getScheme (s : GoStr) : Except GoStr (GoStr × GoStr) := getSchemeAux [] s

/-- Characters a host component may contain unescaped (Go `shouldEscape`
with `encodeHost`: unreserved characters, sub-delimiters, and a few extras;
anything not ASCII passes through unchecked). -/
def validHostChar (c : Char) : Bool :=
  isAlphaNum c || (gs ("-_.~!$&'()*+,;=:[]<>\"")).contains c

/-- Go `unescape`: validate (and decode) percent-escapes. In host mode an
escaped ASCII byte other than `%25` is rejected, and unescaped characters are
checked against the host character set. -/
def unescapeGo (isHost : Bool) : GoStr → Except GoStr GoStr
  | [] => .ok []
  | c :: rest =>
    if c = '%' then
      match rest with
      | h1 :: h2 :: rest2 =>
        match hexVal h1, hexVal h2 with
        | some d1, some d2 =>
          if isHost ∧ d1 < 8 ∧ ¬(h1 = '2' ∧ h2 = '5') then
            .error (gs ("invalid character in host name"))
          else
            match unescapeGo isHost rest2 with
            | .ok t => .ok (Char.ofNat (d1 * 16 + d2) :: t)
            | .error e => .error e
        | _, _ => .error (gs ("invalid URL escape"))
      | _ => .error (gs ("invalid URL escape"))
    else if isHost ∧ c.toNat < 128 ∧ ¬(validHostChar c = true) then
      .error (gs ("invalid character in host name"))
    else
      match unescapeGo isHost rest with
      | .ok t => .ok (c :: t)
      | .error e => .error e

/-- Go `validOptionalPort`: empty, or a colon followed by digits only. -/
def validOptionalPort (p : GoStr) : Bool :=
  match p with
  | [] => true
  | c :: rest => c = ':' && rest.all isDigit

/-- Go `parseHost` (the zone of a bracketed IPv6 literal is validated with the
host character rules, a harmless approximation of `encodeZone`). -/
def parseHost (host : GoStr) : Except GoStr GoStr :=
  match host with
  | '[' :: _ =>
    match cutLast ']' host with
    | none => .error (gs ("missing ']' in host"))
    | some (_, colonPort) =>
      if validOptionalPort colonPort then unescapeGo true host
      else .error (gs ("invalid port after host"))
  | _ =>
    match cutLast ':' host with
    | some (_, after) =>
      if validOptionalPort (':' :: after) then unescapeGo true host
      else .error (gs ("invalid port after host"))
    | none => unescapeGo true host

/-- Characters `validUserinfo` accepts (ASCII only; any other rune fails). -/
def validUserinfoChar (c : Char) : Bool :=
  isAlphaNum c || (gs ("-._:~!$&'()*+,;=%@")).contains c

/-- Go `validUserinfo`. -/
def validUserinfo (s : GoStr) : Bool := s.all validUserinfoChar

/-- Go `parseAuthority`: split at the last `@`, parse the host, validate the
userinfo characters and its percent-escapes. -/
def parseAuthority (authority : GoStr) : Except GoStr (Option GoStr × GoStr) :=
  match cutLast '@' authority with
  | none =>
    match parseHost authority with
    | .ok h => .ok (none, h)
    | .error e => .error e
  | some (userinfo, hostPart) =>
    match parseHost hostPart with
    | .error e => .error e
    | .ok h =>
      if ¬(validUserinfo userinfo = true) then .error (gs ("net/url: invalid userinfo"))
      else
        match cutFirst ':' userinfo with
        | (user, none) =>
          match unescapeGo false user with
          | .ok _ => .ok (some userinfo, h)
          | .error e => .error e
        | (user, some pass) =>
          match unescapeGo false user, unescapeGo false pass with
          | .ok _, .ok _ => .ok (some userinfo, h)
          | .error e, _ => .error e
          | _, .error e => .error e

/-- Go `parse(rawURL, viaRequest := false)`: everything of `url.Parse` except
the fragment, which `Parse` splits off beforehand. -/
def urlParseMain (rawURL : GoStr) : Except GoStr GoURL :=
  if strContainsCTL rawURL then .error (gs ("net/url: invalid control character in URL"))
  else if rawURL = gs ("*") then
    .ok { scheme := [], opaquePart := [], userinfo := none, host := [], path := gs ("*"),
          forceQuery := false, rawQuery := [], fragment := [] }
  else
    match getScheme rawURL with
    | .error e => .error e
    | .ok (scheme0, rest0) =>
      let scheme := scheme0.map asciiLowerChar
      let (rest, forceQuery, rawQuery) :=
        if rest0.getLast? = some '?' ∧ ¬(rest0.dropLast.contains '?' = true) then
          (rest0.dropLast, true, ([] : GoStr))
        else
          match cutFirst '?' rest0 with
          | (before, some after) => (before, false, after)
          | (before, none) => (before, false, [])
      if ¬(List.isPrefixOf (gs ("/")) rest = true) ∧ scheme ≠ [] then
        .ok { scheme, opaquePart := rest, userinfo := none, host := [], path := [],
              forceQuery, rawQuery, fragment := [] }
      else
        let colonCheck : Except GoStr Unit :=
          if scheme = [] ∧ ¬(List.isPrefixOf (gs ("/")) rest = true) then
            (if ((cutFirst '/' rest).1).contains ':' then
              .error (gs ("first path segment in URL cannot contain colon"))
            else .ok ())
          else .ok ()
        match colonCheck with
        | .error e => .error e
        | .ok _ =>
          let hasAuthority :=
            (scheme ≠ [] ∨ ¬(List.isPrefixOf (gs ("///")) rest = true)) ∧
            List.isPrefixOf (gs ("//")) rest
          if hasAuthority then
            let a := rest.drop 2
            let (authority, restPath) :=
              match cutFirst '/' a with
              | (auth, some p) => (auth, '/' :: p)
              | (auth, none) => (auth, ([] : GoStr))
            match parseAuthority authority with
            | .error e => .error e
            | .ok (userinfo, host) =>
              match unescapeGo false restPath with
              | .error e => .error e
              | .ok path =>
                .ok { scheme, opaquePart := [], userinfo, host, path, forceQuery, rawQuery,
                      fragment := [] }
          else
            match unescapeGo false rest with
            | .error e => .error e
            | .ok path =>
              .ok { scheme, opaquePart := [], userinfo := none, host := [], path, forceQuery,
                    rawQuery, fragment := [] }

/-- Go `url.Parse`: split the fragment off first, parse the rest, then
unescape the fragment. -/
def urlParse (rawURL : GoStr) : Except GoStr GoURL :=
  let (u, frag) := cutFirst '#' rawURL
  match urlParseMain u with
  | .error e => .error e
  | .ok url =>
    match frag with
    | none => .ok url
    | some f =>
      match unescapeGo false f with
      | .error e => .error e
      | .ok fd => .ok { url with fragment := fd }

/-! ## Client construction (client.go) -/

/-- The observable part of a Go `http.Client`: its timeout (nanoseconds). -/
structure HTTPClient where
  timeout : Int
deriving DecidableEq, Repr

/-- Go `Config` for `NewClient` (`Timeout` is a `time.Duration` in
nanoseconds; zero means unset). -/
structure Config where
  baseURL : GoStr
  apiKey : GoStr
  apiSecret : GoStr
  timeout : Int
  httpClient : Option HTTPClient

/-- The constructed client. -/
structure Client where
  client : HTTPClient
  baseURL : GoURL
  apiKey : GoStr
  apiSecret : GoStr

/-- `DefaultBaseURL` of client.go. -/
def DefaultBaseURL : GoStr := gs ("https://api.sagapay.net")

/-- `DefaultTimeout` of client.go: 30 seconds in nanoseconds. -/
def DefaultTimeout : Int := 30000000000

/-- `NewClient`: reject empty credentials, fall back to the default base URL,
parse it with `url.Parse`, and default the transport timeout to 30 seconds
when no HTTP client and no positive timeout were supplied. -/
def NewClient (config : Config) : Except GoErr Client :=
  if config.apiKey = [] then .error (.msg (gs ("API key is required")))
  else if config.apiSecret = [] then .error (.msg (gs ("API secret is required")))
  else
    let baseURL := if config.baseURL = [] then DefaultBaseURL else config.baseURL
    match urlParse baseURL with
    | .error e => .error (.msg (gs ("invalid base URL: ") ++ e))
    | .ok parsedURL =>
      let httpClient :=
        match config.httpClient with
        | some hc => hc
        | none => { timeout := if config.timeout > 0 then config.timeout else DefaultTimeout }
      .ok { client := httpClient, baseURL := parsedURL,
            apiKey := config.apiKey, apiSecret := config.apiSecret }

/-! ## Request parameters and their validation (types.go) -/

/-- Go `CreateDepositParams` (`typ` stands for the Go field `Type`). -/
structure CreateDepositParams where
  networkType : GoStr
  contractAddress : GoStr
  amount : GoStr
  ipnUrl : GoStr
  udf : GoStr
  typ : GoStr
deriving DecidableEq, Repr

/-- `CreateDepositParams.Validate`: first missing required field wins. -/
def CreateDepositParams.Validate (p : CreateDepositParams) : Option GoStr :=
  if p.networkType = [] then some (gs ("networkType is required"))
  else if p.contractAddress = [] then some (gs ("contractAddress is required"))
  else if p.amount = [] then some (gs ("amount is required"))
  else if p.ipnUrl = [] then some (gs ("ipnUrl is required"))
  else none

/-- Go `CreateWithdrawalParams`. -/
structure CreateWithdrawalParams where
  networkType : GoStr
  contractAddress : GoStr
  address : GoStr
  amount : GoStr
  ipnUrl : GoStr
  udf : GoStr
deriving DecidableEq, Repr

/-- `CreateWithdrawalParams.Validate`. -/
def CreateWithdrawalParams.Validate (p : CreateWithdrawalParams) : Option GoStr :=
  if p.networkType = [] then some (gs ("networkType is required"))
  else if p.contractAddress = [] then some (gs ("contractAddress is required"))
  else if p.address = [] then some (gs ("address is required"))
  else if p.amount = [] then some (gs ("amount is required"))
  else if p.ipnUrl = [] then some (gs ("ipnUrl is required"))
  else none

/-- `json.Encoder.Encode` of `CreateDepositParams`: declaration order,
`udf` and `type` omitted when empty, trailing newline. -/
def marshalCreateDepositParams (p : CreateDepositParams) : GoStr :=
  '\x7b' :: (jmem (gs ("networkType")) p.networkType ++
  ',' :: jmem (gs ("contractAddress")) p.contractAddress ++
  ',' :: jmem (gs ("amount")) p.amount ++ ',' :: jmem (gs ("ipnUrl")) p.ipnUrl ++
  (if p.udf = [] then [] else ',' :: jmem (gs ("udf")) p.udf) ++
  (if p.typ = [] then [] else ',' :: jmem (gs ("type")) p.typ)) ++ '\x7d' :: ['\n']

/-- `json.Encoder.Encode` of `CreateWithdrawalParams`. -/
def marshalCreateWithdrawalParams (p : CreateWithdrawalParams) : GoStr :=
  '\x7b' :: (jmem (gs ("networkType")) p.networkType ++
  ',' :: jmem (gs ("contractAddress")) p.contractAddress ++
  ',' :: jmem (gs ("address")) p.address ++
  ',' :: jmem (gs ("amount")) p.amount ++ ',' :: jmem (gs ("ipnUrl")) p.ipnUrl ++
  (if p.udf = [] then [] else ',' :: jmem (gs ("udf")) p.udf)) ++ '\x7d' :: ['\n']

/-! ## Response types (types.go) and their decoding -/

/-- Go `DepositResponse`. -/
structure DepositResponse where
  id : GoStr
  address : GoStr
  expiresAt : GoTime
  amount : GoStr
  status : GoStr
deriving DecidableEq, Repr

/-- Go `WithdrawalResponse`. -/
structure WithdrawalResponse where
  id : GoStr
  status : GoStr
  fee : GoStr
deriving DecidableEq, Repr

/-- Go `Token`. -/
structure Token where
  networkType : GoStr
  contractAddress : GoStr
  symbol : GoStr
  name : GoStr
  decimals : Int
deriving DecidableEq, Repr

/-- Go `Balance`. -/
structure Balance where
  raw : GoStr
  formatted : GoStr
deriving DecidableEq, Repr

/-- Go `Transaction`. -/
structure Transaction where
  id : GoStr
  transactionType : GoStr
  status : GoStr
  amount : GoStr
  createdAt : GoTime
  updatedAt : GoTime
  txHash : GoStr
  networkType : GoStr
  contractAddress : GoStr
  address : GoStr
  token : Token
deriving DecidableEq, Repr

/-- Go `TransactionStatusResponse`. -/
structure TransactionStatusResponse where
  address : GoStr
  transactionType : GoStr
  count : Int
  transactions : List Transaction
deriving DecidableEq, Repr

/-- Go `WalletBalanceResponse`. -/
structure WalletBalanceResponse where
  address : GoStr
  networkType : GoStr
  contractAddress : GoStr
  token : Token
  balance : Balance
deriving DecidableEq, Repr

/-- Integer literal accepted when decoding a JSON number into a Go `int`
(`strconv.ParseInt` rejects fractions and exponents). -/
def parseIntLit (s : GoStr) : Option Int :=
  match s with
  | '-' :: ds => if ds ≠ [] ∧ ds.all isDigit then some (-((digitsToNat ds : Nat) : Int)) else none
  | ds => if ds ≠ [] ∧ ds.all isDigit then some (((digitsToNat ds : Nat) : Int)) else none

/-- Decode a JSON value into an `int` field: `some none` keeps the old value
(JSON `null`), `none` is a type error. -/
def jvInt? : Jv → Option (Option Int)
  | .num lit => (parseIntLit lit).map some
  | .null => some none
  | _ => none

/-- Zero values `json.Unmarshal` starts from. -/
def zeroToken : Token := ⟨[], [], [], [], 0⟩

/-- Zero `Balance`. -/
def zeroBalance : Balance := ⟨[], []⟩

/-- Zero `Transaction`. -/
def zeroTransaction : Transaction := ⟨[], [], [], [], zeroGoTime, zeroGoTime, [], [], [], [], zeroToken⟩

/-- Member loop for `Token`. -/
def tokenSetMember (t : Token) (k : GoStr) (v : Jv) : Option Token :=
  if keyMatches k (gs ("networkType")) then
    (jvString? v).map (fun o => match o with | some s => { t with networkType := s } | none => t)
  else if keyMatches k (gs ("contractAddress")) then
    (jvString? v).map (fun o => match o with | some s => { t with contractAddress := s } | none => t)
  else if keyMatches k (gs ("symbol")) then
    (jvString? v).map (fun o => match o with | some s => { t with symbol := s } | none => t)
  else if keyMatches k (gs ("name")) then
    (jvString? v).map (fun o => match o with | some s => { t with name := s } | none => t)
  else if keyMatches k (gs ("decimals")) then
    (jvInt? v).map (fun o => match o with | some n => { t with decimals := n } | none => t)
  else some t

/-- Decode a JSON value into a `Token`. -/
def jvToToken : Jv → Option Token
  | .null => some zeroToken
  | .obj ms => ms.foldl (fun acc kv => acc.bind (fun t => tokenSetMember t kv.1 kv.2)) (some zeroToken)
  | _ => none

/-- Member loop for `Balance`. -/
def balanceSetMember (b : Balance) (k : GoStr) (v : Jv) : Option Balance :=
  if keyMatches k (gs ("raw")) then
    (jvString? v).map (fun o => match o with | some s => { b with raw := s } | none => b)
  else if keyMatches k (gs ("formatted")) then
    (jvString? v).map (fun o => match o with | some s => { b with formatted := s } | none => b)
  else some b

/-- Decode a JSON value into a `Balance`. -/
def jvToBalance : Jv → Option Balance
  | .null => some zeroBalance
  | .obj ms => ms.foldl (fun acc kv => acc.bind (fun b => balanceSetMember b kv.1 kv.2)) (some zeroBalance)
  | _ => none

/-- Member loop for `Transaction`. -/
def transactionSetMember (t : Transaction) (k : GoStr) (v : Jv) : Option Transaction :=
  if keyMatches k (gs ("id")) then
    (jvString? v).map (fun o => match o with | some s => { t with id := s } | none => t)
  else if keyMatches k (gs ("transactionType")) then
    (jvString? v).map (fun o => match o with | some s => { t with transactionType := s } | none => t)
  else if keyMatches k (gs ("status")) then
    (jvString? v).map (fun o => match o with | some s => { t with status := s } | none => t)
  else if keyMatches k (gs ("amount")) then
    (jvString? v).map (fun o => match o with | some s => { t with amount := s } | none => t)
  else if keyMatches k (gs ("createdAt")) then
    (jvTime? v).map (fun o => match o with | some x => { t with createdAt := x } | none => t)
  else if keyMatches k (gs ("updatedAt")) then
    (jvTime? v).map (fun o => match o with | some x => { t with updatedAt := x } | none => t)
  else if keyMatches k (gs ("txHash")) then
    (jvString? v).map (fun o => match o with | some s => { t with txHash := s } | none => t)
  else if keyMatches k (gs ("networkType")) then
    (jvString? v).map (fun o => match o with | some s => { t with networkType := s } | none => t)
  else if keyMatches k (gs ("contractAddress")) then
    (jvString? v).map (fun o => match o with | some s => { t with contractAddress := s } | none => t)
  else if keyMatches k (gs ("address")) then
    (jvString? v).map (fun o => match o with | some s => { t with address := s } | none => t)
  else if keyMatches k (gs ("token")) then
    match v with
    | .null => some t
    | _ => (jvToToken v).map (fun tok => { t with token := tok })
  else some t

/-- Decode a JSON value into a `Transaction`. -/
def jvToTransaction : Jv → Option Transaction
  | .null => some zeroTransaction
  | .obj ms => ms.foldl (fun acc kv => acc.bind (fun t => transactionSetMember t kv.1 kv.2)) (some zeroTransaction)
  | _ => none

/-- Member loop for `DepositResponse`. -/
def depositRespSetMember (r : DepositResponse) (k : GoStr) (v : Jv) : Option DepositResponse :=
  if keyMatches k (gs ("id")) then
    (jvString? v).map (fun o => match o with | some s => { r with id := s } | none => r)
  else if keyMatches k (gs ("address")) then
    (jvString? v).map (fun o => match o with | some s => { r with address := s } | none => r)
  else if keyMatches k (gs ("expiresAt")) then
    (jvTime? v).map (fun o => match o with | some x => { r with expiresAt := x } | none => r)
  else if keyMatches k (gs ("amount")) then
    (jvString? v).map (fun o => match o with | some s => { r with amount := s } | none => r)
  else if keyMatches k (gs ("status")) then
    (jvString? v).map (fun o => match o with | some s => { r with status := s } | none => r)
  else some r

/-- Decode a JSON value into a `DepositResponse`. -/
def jvToDepositResponse : Jv → Option DepositResponse
  | .null => some ⟨[], [], zeroGoTime, [], []⟩
  | .obj ms => ms.foldl (fun acc kv => acc.bind (fun r => depositRespSetMember r kv.1 kv.2)) (some ⟨[], [], zeroGoTime, [], []⟩)
  | _ => none

/-- Member loop for `WithdrawalResponse`. -/
def withdrawalRespSetMember (r : WithdrawalResponse) (k : GoStr) (v : Jv) : Option WithdrawalResponse :=
  if keyMatches k (gs ("id")) then
    (jvString? v).map (fun o => match o with | some s => { r with id := s } | none => r)
  else if keyMatches k (gs ("status")) then
    (jvString? v).map (fun o => match o with | some s => { r with status := s } | none => r)
  else if keyMatches k (gs ("fee")) then
    (jvString? v).map (fun o => match o with | some s => { r with fee := s } | none => r)
  else some r

/-- Decode a JSON value into a `WithdrawalResponse`. -/
def jvToWithdrawalResponse : Jv → Option WithdrawalResponse
  | .null => some ⟨[], [], []⟩
  | .obj ms => ms.foldl (fun acc kv => acc.bind (fun r => withdrawalRespSetMember r kv.1 kv.2)) (some ⟨[], [], []⟩)
  | _ => none

/-- Member loop for `TransactionStatusResponse`. -/
def txStatusRespSetMember (r : TransactionStatusResponse) (k : GoStr) (v : Jv) :
    Option TransactionStatusResponse :=
  if keyMatches k (gs ("address")) then
    (jvString? v).map (fun o => match o with | some s => { r with address := s } | none => r)
  else if keyMatches k (gs ("transactionType")) then
    (jvString? v).map (fun o => match o with | some s => { r with transactionType := s } | none => r)
  else if keyMatches k (gs ("count")) then
    (jvInt? v).map (fun o => match o with | some n => { r with count := n } | none => r)
  else if keyMatches k (gs ("transactions")) then
    match v with
    | .null => some r
    | .arr xs => (xs.mapM jvToTransaction).map (fun ts => { r with transactions := ts })
    | _ => none
  else some r

/-- Decode a JSON value into a `TransactionStatusResponse`. -/
def jvToTransactionStatusResponse : Jv → Option TransactionStatusResponse
  | .null => some ⟨[], [], 0, []⟩
  | .obj ms => ms.foldl (fun acc kv => acc.bind (fun r => txStatusRespSetMember r kv.1 kv.2)) (some ⟨[], [], 0, []⟩)
  | _ => none

/-- Member loop for `WalletBalanceResponse`. -/
def walletRespSetMember (r : WalletBalanceResponse) (k : GoStr) (v : Jv) :
    Option WalletBalanceResponse :=
  if keyMatches k (gs ("address")) then
    (jvString? v).map (fun o => match o with | some s => { r with address := s } | none => r)
  else if keyMatches k (gs ("networkType")) then
    (jvString? v).map (fun o => match o with | some s => { r with networkType := s } | none => r)
  else if keyMatches k (gs ("contractAddress")) then
    (jvString? v).map (fun o => match o with | some s => { r with contractAddress := s } | none => r)
  else if keyMatches k (gs ("token")) then
    match v with
    | .null => some r
    | _ => (jvToToken v).map (fun tok => { r with token := tok })
  else if keyMatches k (gs ("balance")) then
    match v with
    | .null => some r
    | _ => (jvToBalance v).map (fun b => { r with balance := b })
  else some r

/-- Decode a JSON value into a `WalletBalanceResponse`. -/
def jvToWalletBalanceResponse : Jv → Option WalletBalanceResponse
  | .null => some ⟨[], [], [], zeroToken, zeroBalance⟩
  | .obj ms => ms.foldl (fun acc kv => acc.bind (fun r => walletRespSetMember r kv.1 kv.2)) (some ⟨[], [], [], zeroToken, zeroBalance⟩)
  | _ => none

/-! ## The transport path (client.go `sendRequestWithQuery`) -/

/-- Member loop for `APIError` (its `Code` field carries the tag `json:"-"`
and therefore never matches a JSON member). A `data` member stores the raw
JSON value in the untyped slot; `null` leaves it nil. -/
def apiErrorSetMember (e : APIError) (k : GoStr) (v : Jv) : Option APIError :=
  if keyMatches k (gs ("error")) then
    (jvString? v).map (fun o => match o with | some s => { e with error := s } | none => e)
  else if keyMatches k (gs ("message")) then
    (jvString? v).map (fun o => match o with | some s => { e with message := s } | none => e)
  else if keyMatches k (gs ("data")) then
    match v with
    | .null => some e
    | _ => some { e with data := some v }
  else some e

/-- Decode a JSON value into an `APIError`. -/
def jvToAPIError : Jv → Option APIError
  | .null => some zeroAPIError
  | .obj ms => ms.foldl (fun acc kv => acc.bind (fun e => apiErrorSetMember e kv.1 kv.2)) (some zeroAPIError)
  | _ => none

/-- `json.Decoder.Decode`: take the first JSON value of the stream, ignoring
whatever follows it. -/
def decodeFirstJson (s : GoStr) : Option Jv := (parseJsonValue s).map (·.1)

/-- `json.NewDecoder(resp.Body).Decode(&apiErr)` of the error branch. -/
def decodeAPIErrorBody (s : GoStr) : Option APIError := (decodeFirstJson s).bind jvToAPIError

/-- Decimal rendering of a natural number. -/
def natToDecAux : Nat → Nat → GoStr
  | 0, _ => []
  | fuel + 1, n => if n < 10 then [digitChar n] else natToDecAux fuel (n / 10) ++ [digitChar (n % 10)]

/-- Decimal rendering (Go `%d` for a non-negative value). -/
def natToDec (n : Nat) : GoStr := natToDecAux (n + 1) n

/-- The outbound request as `sendRequestWithQuery` assembles it: the method,
the parsed base URL and endpoint path (resolved against each other by the
transport), the query parameters, the four headers, and the encoded body. -/
structure RequestData where
  method : GoStr
  base : GoURL
  path : GoURL
  query : Option (List (GoStr × GoStr))
  headers : List (GoStr × GoStr)
  body : Option GoStr

/-- What the HTTP round trip produces: a transport error, or a status code
with a response body. -/
abbrev TransportResult := Except GoStr (Nat × GoStr)

/-- The transport oracle (`http.Client.Do`). -/
abbrev Transport := RequestData → TransportResult

/-- The request `sendRequestWithQuery` hands to the transport: the four fixed
headers carry the content types and the raw credentials. -/
def buildRequest (c : Client) (method : GoStr) (u : GoURL)
    (query : Option (List (GoStr × GoStr))) (body : Option GoStr) : RequestData :=
  { method, base := c.baseURL, path := u, query,
    headers := [(gs ("Content-Type"), gs ("application/json")),
                (gs ("Accept"), gs ("application/json")),
                (gs ("x-api-key"), c.apiKey),
                (gs ("x-api-secret"), c.apiSecret)],
    body }

/-- `sendRequestWithQuery`: parse the endpoint path, build the request with
its four headers, run the transport; any status `≥ 400` decodes the body as
an `APIError` (an undecodable body degrades to the generic
`HTTP error: <code> - failed to parse error response` message); otherwise the
success body is decoded into the typed response. -/
def sendRequestWithQuery {V : Type} (transport : Transport) (c : Client)
    (method path : GoStr) (query : Option (List (GoStr × GoStr))) (body : Option GoStr)
    (decodeV : Jv → Option V) : Except GoErr V :=
  match urlParse path with
  | .error e => .error (.msg e)
  | .ok u =>
    match transport (buildRequest c method u query body) with
    | .error e => .error (.msg e)
    | .ok (status, respBody) =>
      if status ≥ 400 then
        match decodeAPIErrorBody respBody with
        | some apiErr => .error (.api apiErr)
        | none => .error (.msg (gs ("HTTP error: ") ++ natToDec status ++
            gs (" - failed to parse error response")))
      else
        match (decodeFirstJson respBody).bind decodeV with
        | some v => .ok v
        | none => .error (.msg (gs ("failed to decode response body")))

/-! ## The four client operations -/

/-- `CreateDeposit`: validate locally, then POST the JSON-encoded parameters
to `/create-deposit`. -/
def CreateDeposit (transport : Transport) (c : Client) (params : CreateDepositParams) :
    Except GoErr DepositResponse :=
  match params.Validate with
  | some e => .error (.msg e)
  | none =>
    sendRequestWithQuery transport c (gs ("POST")) (gs ("/create-deposit")) none
      (some (marshalCreateDepositParams params)) jvToDepositResponse

/-- `CreateWithdrawal`: validate locally, then POST to `/create-withdrawal`. -/
def CreateWithdrawal (transport : Transport) (c : Client) (params : CreateWithdrawalParams) :
    Except GoErr WithdrawalResponse :=
  match params.Validate with
  | some e => .error (.msg e)
  | none =>
    sendRequestWithQuery transport c (gs ("POST")) (gs ("/create-withdrawal")) none
      (some (marshalCreateWithdrawalParams params)) jvToWithdrawalResponse

/-- `CheckTransactionStatus`: requires a non-empty address, then GET with the
`address` and `type` query parameters. -/
def CheckTransactionStatus (transport : Transport) (c : Client)
    (address : GoStr) (transactionType : GoStr) : Except GoErr TransactionStatusResponse :=
  if address = [] then .error (.msg (gs ("address is required")))
  else
    sendRequestWithQuery transport c (gs ("GET")) (gs ("/check-transaction-status"))
      (some [(gs ("address"), address), (gs ("type"), transactionType)]) none
      jvToTransactionStatusResponse

/-- `FetchWalletBalance`: requires a non-empty address, then GET with the
`address` and `networkType` parameters, plus `contractAddress` only when it is
non-empty. -/
def FetchWalletBalance (transport : Transport) (c : Client)
    (address : GoStr) (networkType : GoStr) (contractAddress : GoStr) :
    Except GoErr WalletBalanceResponse :=
  if address = [] then .error (.msg (gs ("address is required")))
  else
    sendRequestWithQuery transport c (gs ("GET")) (gs ("/fetch-wallet-balance"))
      (some ([(gs ("address"), address), (gs ("networkType"), networkType)] ++
        (if contractAddress = [] then [] else [(gs ("contractAddress"), contractAddress)]))) none
      jvToWalletBalanceResponse

/-! ## Enumeration constants (types.go) -/

/-- `NetworkType` constants. -/
def networkTypes : List GoStr :=
  [gs ("ERC20"), gs ("BEP20"), gs ("TRC20"), gs ("POLYGON"), gs ("SOLANA")]

/-- `TransactionType` constants. -/
def transactionTypes : List GoStr := [gs ("deposit"), gs ("withdrawal")]

/-- `TransactionStatus` constants. -/
def transactionStatuses : List GoStr :=
  [gs ("PENDING"), gs ("PROCESSING"), gs ("COMPLETED"), gs ("FAILED"), gs ("CANCELLED")]

/-! ## Derived forms used to state and prove the claims -/

/-- Is an `Except` an error? -/
def exceptIsErr {ε α : Type} : Except ε α → Bool
  | .error _ => true
  | .ok _ => false

/-- A flat JSON object body: members joined by commas (callers add the
braces). Writing an encoder output in this form lets one lemma cover every
all-string-members object the SDK produces. -/
def encodeMembers : List (GoStr × GoStr) → GoStr
  | [] => []
  | [kv] => jmem kv.1 kv.2
  | kv :: rest => jmem kv.1 kv.2 ++ ',' :: encodeMembers rest

/-- The member list of `marshalWebhookPayload`, with the timestamp already
rendered; used to relate the marshaller to the generic object lemma. -/
def payloadMembers (p : WebhookPayload) : List (GoStr × GoStr) :=
  [(gs ("id"), p.id), (gs ("type"), p.typ), (gs ("status"), p.status),
   (gs ("address"), p.address), (gs ("networkType"), p.networkType), (gs ("amount"), p.amount)] ++
  (if p.udf = [] then [] else [(gs ("udf"), p.udf)]) ++
  (if p.txHash = [] then [] else [(gs ("txHash"), p.txHash)]) ++
  [(gs ("timestamp"), formatRFC3339Nano p.timestamp)]

/-- A structured gateway error body: an object with `error` and `message`
string members, as the spec's scenarios use. -/
def apiErrorBody (a b : GoStr) : GoStr :=
  '\x7b' :: encodeMembers [(gs ("error"), a), (gs ("message"), b)] ++ ['\x7d']

/-- Modelled from the spec: the spec's phrase "the base URL does not parse as
a valid absolute URL" — parsing succeeds and the result is absolute, i.e. has
a scheme. Stated separately from the source-derived `urlParse` so that the
claim about `NewClient` can be compared against it. -/
def specValidAbsoluteURL (s : GoStr) : Bool :=
  match urlParse s with
  | .ok u => !(u.scheme == [])
  | .error _ => false

/-! ## Concrete instances for witnesses and counterexamples -/

/-- A handler with a non-empty secret. -/
def handlerS : WebhookHandler := NewWebhookHandler (gs ("secret"))

/-- A handler with the empty secret. -/
def handlerEmpty : WebhookHandler := NewWebhookHandler []

/-- A request whose signature header is missing. -/
def reqNoSig : HTTPRequest := ⟨[(gs ("Content-Type"), gs ("application/json"))], .ok []⟩

/-- A request carrying a (wrong) signature and an empty body. -/
def reqWithSig : HTTPRequest := ⟨[(gs ("X-Sagapay-Signature"), gs ("x"))], .ok []⟩

/-- A config whose base URL is relative: Go's `url.Parse` accepts it, so
`NewClient` succeeds although `"x"` is not an absolute URL. -/
def cfgRelative : Config := ⟨gs ("x"), gs ("k"), gs ("s"), 0, none⟩

/-- A config with defaults: no base URL, no timeout, no HTTP client. -/
def cfgDefaults : Config := ⟨[], gs ("k"), gs ("s"), 0, none⟩

/-- A config with an empty secret. -/
def cfgEmptySecret : Config := ⟨[], gs ("k"), [], 0, none⟩

/-- A config whose base URL has a control character, which `url.Parse`
rejects. -/
def cfgCtl : Config := ⟨['h', Char.ofNat 10], gs ("k"), gs ("s"), 0, none⟩

/-- A transport answering 401 with the spec's structured error body. -/
def transport401 : Transport := fun _ => .ok (401, apiErrorBody (gs ("unauthorized")) (gs ("bad key")))

/-- A transport answering 500 with an unparseable body. -/
def transport500 : Transport := fun _ => .ok (500, gs ("oops"))

/-- A client as `NewClient` builds it from `cfgDefaults`. -/
def clientDefault : Client :=
  { client := { timeout := DefaultTimeout },
    baseURL := { scheme := gs ("https"), opaquePart := [], userinfo := none,
                 host := gs ("api.sagapay.net"), path := [], forceQuery := false,
                 rawQuery := [], fragment := [] },
    apiKey := gs ("k"), apiSecret := gs ("s") }

/-- Deposit parameters with an empty amount. -/
def depositNoAmount : CreateDepositParams :=
  ⟨gs ("BEP20"), gs ("0"), [], gs ("https://x/webhook"), [], []⟩

/-- Withdrawal parameters with an empty destination address. -/
def withdrawalNoAddress : CreateWithdrawalParams :=
  ⟨gs ("ERC20"), gs ("0"), [], gs ("10.5"), gs ("https://x/webhook"), []⟩

/-- A fully populated valid payload (every enum combination of the claim can
be substituted; this is the witness instance). -/
def samplePayload : WebhookPayload :=
  ⟨gs ("t1"), gs ("deposit"), gs ("COMPLETED"), gs ("0xabc"), gs ("ERC20"), gs ("5"),
   [], gs ("0xdef"), ⟨2025, 3, 16, 14, 30, 0, 500000000, 0⟩⟩

/-! # Theorems -/

/-! ## The JSON string escape round trip -/

theorem hexVal_hexDigitChar (d : Nat) (h : d < 16) : hexVal (hexDigitChar d) = some d := by
  interval_cases d <;> decide

theorem parseStrAux_escapeChar (c : Char) (fuel : Nat) (tail : GoStr) :
    parseStrAux (fuel + 1) (escapeChar c ++ tail) =
    (parseStrAux fuel tail).map (fun tr => (c :: tr.1, tr.2)) := by
  by_cases h1 : c = '"'
  · subst h1; rfl
  by_cases h2 : c = '\\'
  · subst h2; rfl
  by_cases h3 : c = '\n'
  · subst h3; rfl
  by_cases h4 : c = '\r'
  · subst h4; rfl
  by_cases h5 : c = '\t'
  · subst h5; rfl
  by_cases h6 : c.toNat < 32
  · have e1 : escapeChar c = ['\\', 'u', '0', '0', hexDigitChar (c.toNat / 16), hexDigitChar (c.toNat % 16)] := by
      simp [escapeChar, h1, h2, h3, h4, h5, h6]
    have hd1 : c.toNat / 16 < 16 := by omega
    have hd2 : c.toNat % 16 < 16 := by omega
    have harith : c.toNat / 16 * 16 + c.toNat % 16 = c.toNat := by omega
    have hs1 : ¬(55296 ≤ c.toNat ∧ c.toNat ≤ 56319) := by omega
    have hs2 : ¬(56320 ≤ c.toNat ∧ c.toNat ≤ 57343) := by omega
    rw [e1]
    simp +decide only [parseStrAux, List.append_eq, List.cons_append, List.nil_append]
    rw [hexVal_hexDigitChar _ hd1, hexVal_hexDigitChar _ hd2,
      show hexVal '0' = some 0 from rfl]
    simp only [Nat.zero_mul, Nat.zero_add, harith]
    simp [hs1, hs2, Char.ofNat_toNat]
  by_cases h7 : c = '<'
  · subst h7; rfl
  by_cases h8 : c = '>'
  · subst h8; rfl
  by_cases h9 : c = '&'
  · subst h9; rfl
  by_cases h10 : c.toNat = 8232
  · have hc : c = Char.ofNat 8232 := by rw [← Char.ofNat_toNat c, h10]
    subst hc; rfl
  by_cases h11 : c.toNat = 8233
  · have hc : c = Char.ofNat 8233 := by rw [← Char.ofNat_toNat c, h11]
    subst hc; rfl
  · have e1 : escapeChar c = [c] := by
      simp [escapeChar, h1, h2, h3, h4, h5, h6, h7, h8, h9, h10, h11]
    rw [e1]
    simp only [List.cons_append, List.nil_append, parseStrAux, h1, h2, h6, if_neg, if_false]
    simp [h1, h2, h6]

theorem escapeChar_length_pos (c : Char) : 1 ≤ (escapeChar c).length := by
  by_cases h1 : c = '"'
  · subst h1; decide
  by_cases h2 : c = '\\'
  · subst h2; decide
  by_cases h3 : c = '\n'
  · subst h3; decide
  by_cases h4 : c = '\r'
  · subst h4; decide
  by_cases h5 : c = '\t'
  · subst h5; decide
  by_cases h6 : c.toNat < 32
  · simp [escapeChar, h1, h2, h3, h4, h5, h6]
  by_cases h7 : c = '<'
  · subst h7; decide
  by_cases h8 : c = '>'
  · subst h8; decide
  by_cases h9 : c = '&'
  · subst h9; decide
  by_cases h10 : c.toNat = 8232
  · simp [escapeChar, h1, h2, h3, h4, h5, h6, h7, h8, h9, h10]
  by_cases h11 : c.toNat = 8233
  · simp [escapeChar, h1, h2, h3, h4, h5, h6, h7, h8, h9, h10, h11]
  · simp [escapeChar, h1, h2, h3, h4, h5, h6, h7, h8, h9, h10, h11]

theorem escapeStr_length_ge (s : GoStr) : s.length ≤ (escapeStr s).length := by
  induction s with
  | nil => simp [escapeStr]
  | cons c t ih =>
    have hc : 1 ≤ (escapeChar c).length := escapeChar_length_pos c
    simp only [escapeStr, List.length_append, List.length_cons]
    omega

theorem parseStrAux_escape (s : GoStr) : ∀ (fuel : Nat) (rest : GoStr), s.length + 1 ≤ fuel →
    parseStrAux fuel (escapeStr s ++ '"' :: rest) = some (s, rest) := by
  induction s with
  | nil =>
    intro fuel rest hf
    obtain ⟨f, rfl⟩ : ∃ f, fuel = f + 1 := ⟨fuel - 1, by omega⟩
    rfl
  | cons c t ih =>
    intro fuel rest hf
    obtain ⟨f, rfl⟩ : ∃ f, fuel = f + 1 := ⟨fuel - 1, by omega⟩
    have step := parseStrAux_escapeChar c f (escapeStr t ++ '"' :: rest)
    simp only [escapeStr, List.append_assoc] at step ⊢
    rw [step, ih f rest (by simp at hf; omega)]
    rfl

theorem parseStr_escape (s rest : GoStr) :
    parseStr (escapeStr s ++ '"' :: rest) = some (s, rest) := by
  apply parseStrAux_escape
  have := escapeStr_length_ge s
  simp only [List.length_append, List.length_cons]
  omega

theorem escapeStr_eq_self {s : GoStr} (h : ∀ c ∈ s, escapeChar c = [c]) : escapeStr s = s := by
  induction s with
  | nil => rfl
  | cons c t ih =>
    simp only [escapeStr, h c (by simp), List.singleton_append, List.cons.injEq, true_and]
    exact ih (fun x hx => h x (by simp [hx]))

theorem parseStr_plain (s rest : GoStr) (h : ∀ c ∈ s, escapeChar c = [c]) :
    parseStr (s ++ '"' :: rest) = some (s, rest) := by
  have := parseStr_escape s rest
  rwa [escapeStr_eq_self h] at this

/-! ## Decimal digits and the RFC 3339 round trip -/

theorem digitChar_facts (d : Nat) (h : d < 10) :
    (Char.ofNat (48 + d)).toNat = 48 + d ∧ digVal (Char.ofNat (48 + d)) = some d ∧
    isDigit (Char.ofNat (48 + d)) = true ∧ escapeChar (Char.ofNat (48 + d)) = [Char.ofNat (48 + d)] := by
  interval_cases d <;> exact ⟨by decide, by decide, by decide, by decide⟩

theorem digVal_digitChar (n : Nat) : digVal (digitChar n) = some (n % 10) :=
  (digitChar_facts (n % 10) (Nat.mod_lt _ (by omega))).2.1

theorem isDigit_digitChar (n : Nat) : isDigit (digitChar n) = true :=
  (digitChar_facts (n % 10) (Nat.mod_lt _ (by omega))).2.2.1

theorem toNat_digitChar (n : Nat) : (digitChar n).toNat = 48 + n % 10 :=
  (digitChar_facts (n % 10) (Nat.mod_lt _ (by omega))).1

theorem escapeChar_digitChar (n : Nat) : escapeChar (digitChar n) = [digitChar n] :=
  (digitChar_facts (n % 10) (Nat.mod_lt _ (by omega))).2.2.2

theorem read2_pad2 (n : Nat) (h : n ≤ 99) (rest : GoStr) :
    read2 (pad2 n ++ rest) = some (n, rest) := by
  simp [pad2, read2, digVal_digitChar]
  omega

theorem read4_pad4 (n : Nat) (h : n ≤ 9999) (rest : GoStr) :
    read4 (pad4 n ++ rest) = some (n, rest) := by
  simp [pad4, read4, digVal_digitChar]
  omega

theorem expectChar_cons_self (c : Char) (rest : GoStr) : expectChar c (c :: rest) = some rest := by
  simp [expectChar]


theorem digitsFoldl_append_zeros (D : List Nat) (z : Nat) :
    (D ++ List.replicate z 0).foldl (fun a d => a * 10 + d) 0 =
    D.foldl (fun a d => a * 10 + d) 0 * 10 ^ z := by
  induction z generalizing D with
  | zero => simp
  | succ z ih =>
    have : D ++ List.replicate (z + 1) 0 = (D ++ [0]) ++ List.replicate z 0 := by
      simp [List.replicate_succ]
    rw [this, ih, List.foldl_append]
    simp [Nat.pow_succ]
    ring

theorem takeWhile_append_stop {p : Char → Bool} (xs ys : List Char)
    (hx : ∀ x ∈ xs, p x = true) (hy : ∀ c, ys.head? = some c → p c = false) :
    (xs ++ ys).takeWhile p = xs := by
  induction xs with
  | nil =>
    cases ys with
    | nil => rfl
    | cons c r => simp [List.takeWhile, hy c rfl]
  | cons x xs ih =>
    simp only [List.cons_append, List.takeWhile, hx x (by simp)]
    simp [ih (fun a ha => hx a (by simp [ha])), hx x (by simp)]

theorem dropTrailingZeros_spec (l : List Nat) :
    ∃ z, l = dropTrailingZeros l ++ List.replicate z 0 := by
  refine ⟨(l.reverse.takeWhile (· == 0)).length, ?_⟩
  have h1 : l.reverse.takeWhile (· == 0) =
      List.replicate (l.reverse.takeWhile (· == 0)).length 0 := by
    apply List.eq_replicate_of_mem
    intro b hb
    have := List.mem_takeWhile_imp hb
    simpa using this
  conv_lhs => rw [← l.reverse_reverse, ← List.takeWhile_append_dropWhile (p := (· == 0)) (l := l.reverse)]
  rw [List.reverse_append, dropTrailingZeros]
  congr 1
  rw [h1, List.reverse_replicate]
  simp

theorem mem_dropTrailingZeros {l : List Nat} {x : Nat} (h : x ∈ dropTrailingZeros l) : x ∈ l := by
  rw [dropTrailingZeros] at h
  rw [List.mem_reverse] at h
  have := (List.dropWhile_sublist (p := (· == 0)) (l := l.reverse)).mem h
  simpa using this

theorem pad9digits_lt (n : Nat) : ∀ d ∈ pad9digits n, d < 10 := by
  intro d hd
  simp [pad9digits] at hd
  rcases hd with rfl | rfl | rfl | rfl | rfl | rfl | rfl | rfl | rfl <;> omega

theorem pad9digits_length (n : Nat) : (pad9digits n).length = 9 := by
  simp [pad9digits]

theorem pad9digits_val (n : Nat) (h : n ≤ 999999999) :
    (pad9digits n).foldl (fun a d => a * 10 + d) 0 = n := by
  simp [pad9digits, List.foldl]
  omega


theorem foldl_digit_chars (D : List Nat) : ∀ (a : Nat), (∀ d ∈ D, d < 10) →
    (D.map digitChar).foldl (fun acc c => acc * 10 + (c.toNat - 48)) a =
    D.foldl (fun acc d => acc * 10 + d) a := by
  induction D with
  | nil => intro a _; simp
  | cons d t ih =>
    intro a h
    simp only [List.map_cons, List.foldl_cons]
    rw [toNat_digitChar]
    have hd : d % 10 = d := Nat.mod_eq_of_lt (h d (by simp))
    rw [show 48 + d % 10 - 48 = d % 10 by omega, hd]
    exact ih _ (fun x hx => h x (by simp [hx]))

theorem parseFrac_formatFrac (n : Nat) (h : n ≤ 999999999) (rest : GoStr)
    (hr : ∀ c, rest.head? = some c → isDigit c = false ∧ c ≠ '.') :
    parseFracRFC (formatFrac n ++ rest) = some (n, rest) := by
  by_cases h0 : n = 0
  · subst h0
    simp only [formatFrac, if_pos rfl, List.nil_append]
    cases rest with
    | nil => rfl
    | cons c r =>
      have := hr c rfl
      simp [parseFracRFC, this.2]
  · obtain ⟨z, hz⟩ := dropTrailingZeros_spec (pad9digits n)
    set D := dropTrailingZeros (pad9digits n) with hD
    have hmemD : ∀ d ∈ D, d < 10 := fun d hd => pad9digits_lt n d (mem_dropTrailingZeros hd)
    have hlen : D.length + z = 9 := by
      have := congrArg List.length hz
      simp only [pad9digits_length, List.length_append, List.length_replicate] at this
      omega
    have hvalD : D.foldl (fun a d => a * 10 + d) 0 * 10 ^ z = n := by
      rw [← digitsFoldl_append_zeros, ← hz, pad9digits_val n h]
    have hDne : D ≠ [] := by
      intro hnil
      rw [hnil] at hvalD
      simp at hvalD
      exact h0 hvalD.symm
    have hff : formatFrac n = '.' :: D.map digitChar := by
      simp [formatFrac, h0, hD]
    rw [hff]
    have htw : ((D.map digitChar) ++ rest).takeWhile isDigit = D.map digitChar :=
      takeWhile_append_stop _ _
        (by intro x hx; obtain ⟨d, _, rfl⟩ := List.mem_map.1 hx; exact isDigit_digitChar d)
        (fun c hc => (hr c hc).1)
    have h1 : 1 ≤ (D.map digitChar).length := by
      rw [List.length_map]
      exact List.length_pos.2 hDne
    have h9 : (D.map digitChar).length ≤ 9 := by rw [List.length_map]; omega
    simp only [List.cons_append, parseFracRFC, if_pos rfl, htw, if_pos (And.intro h1 h9),
      List.drop_left]
    have hval : digitsToNat (D.map digitChar) * 10 ^ (9 - D.length) = n := by
      unfold digitsToNat
      rw [foldl_digit_chars D 0 hmemD]
      rw [show 9 - D.length = z by omega]
      exact hvalD
    simp [hval]

theorem formatZone_head (o : Int) :
    ∀ c, (formatZone o).head? = some c → isDigit c = false ∧ c ≠ '.' := by
  intro c hc
  by_cases h0 : o = 0
  · subst h0
    simp [formatZone] at hc
    subst hc
    exact ⟨by decide, by decide⟩
  · by_cases hneg : o < 0
    · simp [formatZone, h0, hneg] at hc
      subst hc
      exact ⟨by decide, by decide⟩
    · simp [formatZone, h0, hneg] at hc
      subst hc
      exact ⟨by decide, by decide⟩

theorem parseZone_format (o : Int) (h : o.natAbs ≤ 1439) (rest : GoStr) :
    parseZoneRFC (formatZone o ++ rest) = some (o, rest) := by
  by_cases h0 : o = 0
  · subst h0; rfl
  · have hh : o.natAbs / 60 ≤ 23 := by omega
    have hm : o.natAbs % 60 ≤ 59 := by omega
    have hh99 : o.natAbs / 60 ≤ 99 := by omega
    have hm99 : o.natAbs % 60 ≤ 99 := by omega
    by_cases hneg : o < 0
    · have hfz : formatZone o ++ rest =
          '-' :: (pad2 (o.natAbs / 60) ++ ':' :: (pad2 (o.natAbs % 60) ++ rest)) := by
        simp [formatZone, h0, hneg]
      rw [hfz]
      simp +decide only [parseZoneRFC, read2_pad2 _ hh99, read2_pad2 _ hm99,
        expectChar_cons_self, if_pos (And.intro hh hm), if_true, if_false]
      have hoeq : -(((o.natAbs / 60 * 60 + o.natAbs % 60 : Nat) : Int)) = o := by omega
      rw [hoeq]
    · have hpos : 0 < o := by omega
      have hfz : formatZone o ++ rest =
          '+' :: (pad2 (o.natAbs / 60) ++ ':' :: (pad2 (o.natAbs % 60) ++ rest)) := by
        simp [formatZone, h0, hneg]
      rw [hfz]
      simp +decide only [parseZoneRFC, read2_pad2 _ hh99, read2_pad2 _ hm99,
        expectChar_cons_self, if_pos (And.intro hh hm), if_true, if_false]
      have hoeq : (((o.natAbs / 60 * 60 + o.natAbs % 60 : Nat) : Int)) = o := by omega
      rw [hoeq]

theorem daysInMonth_le (y m : Nat) : daysInMonth y m ≤ 31 := by
  unfold daysInMonth
  split_ifs <;> omega

theorem parseRFC3339_format (t : GoTime) (h : ValidGoTime t) :
    parseRFC3339 (formatRFC3339Nano t) = some t := by
  obtain ⟨h1, h2, h3, h4, h5, h6, h7, h8, h9, h10⟩ := h
  have hday : t.day ≤ 31 := le_trans h4 (daysInMonth_le _ _)
  have hzone := parseZone_format t.offsetMin h10 []
  rw [List.append_nil] at hzone
  have hfrac := parseFrac_formatFrac t.nsec h8 (formatZone t.offsetMin) (formatZone_head _)
  simp only [formatRFC3339Nano, parseRFC3339, List.append_assoc, List.cons_append,
    read4_pad4 _ h9, expectChar_cons_self,
    read2_pad2 _ (show t.month ≤ 99 by omega),
    read2_pad2 _ (show t.day ≤ 99 by omega),
    read2_pad2 _ (show t.hour ≤ 99 by omega),
    read2_pad2 _ (show t.minute ≤ 99 by omega),
    read2_pad2 _ (show t.second ≤ 99 by omega),
    hfrac, hzone]
  simp [h1, h2, h3, h4, h5, h6, h7]

/-! ## The timestamp rendering needs no JSON escaping -/

theorem pad2_plain (n : Nat) : ∀ c ∈ pad2 n, escapeChar c = [c] := by
  intro c hc
  simp [pad2] at hc
  rcases hc with rfl | rfl <;> exact escapeChar_digitChar _

theorem pad4_plain (n : Nat) : ∀ c ∈ pad4 n, escapeChar c = [c] := by
  intro c hc
  simp [pad4] at hc
  rcases hc with rfl | rfl | rfl | rfl <;> exact escapeChar_digitChar _

theorem formatFrac_plain (n : Nat) : ∀ c ∈ formatFrac n, escapeChar c = [c] := by
  intro c hc
  by_cases h0 : n = 0
  · subst h0; simp [formatFrac] at hc
  · simp [formatFrac, h0] at hc
    rcases hc with rfl | ⟨d, _, rfl⟩
    · decide
    · exact escapeChar_digitChar _

theorem formatZone_plain (o : Int) : ∀ c ∈ formatZone o, escapeChar c = [c] := by
  intro c hc
  by_cases h0 : o = 0
  · subst h0; simp [formatZone] at hc; subst hc; decide
  · by_cases hneg : o < 0 <;>
    · simp [formatZone, h0, hneg] at hc
      rcases hc with rfl | hc
      · decide
      · rcases hc with hc | rfl | hc
        · exact pad2_plain _ c hc
        · decide
        · exact pad2_plain _ c hc

theorem formatRFC3339Nano_plain (t : GoTime) :
    ∀ c ∈ formatRFC3339Nano t, escapeChar c = [c] := by
  unfold formatRFC3339Nano
  simp only [List.forall_mem_append, List.forall_mem_cons]
  repeat' constructor
  all_goals first
    | decide
    | exact pad4_plain _
    | exact pad2_plain _
    | exact formatFrac_plain _
    | exact formatZone_plain _


/-! ## Parsing the flat JSON objects the SDK writes -/

theorem skipWs_cons (c : Char) (l : GoStr) (h : isJsonWs c = false) : skipWs (c :: l) = c :: l := by
  simp [skipWs, List.dropWhile, h]

theorem parseVal_string (vf : Nat) (v after : GoStr) :
    parseVal (vf + 1) ('"' :: (escapeStr v ++ '"' :: after)) = some (.str v, after) := by
  simp +decide only [parseVal, skipWs_cons, parseStr_escape, Option.map_some, if_true, if_false]
  rfl

theorem parseMember_encoded (vf : Nat) (k v : GoStr) (after : GoStr) :
    parseMember (parseVal (vf + 1)) (jmem k v ++ after) = some ((k, Jv.str v), after) := by
  have h1 : jmem k v ++ after = '"' :: (escapeStr k ++ '"' :: (':' :: ('"' :: (escapeStr v ++ '"' :: after)))) := by
    simp [jmem, jstr]
  rw [h1]
  simp +decide only [parseMember, skipWs_cons, parseStr_escape, parseVal_string, Option.map_some, if_true, if_false]
  rfl

theorem parseItems_encodeMembers (vf : Nat) (ms : List (GoStr × GoStr)) (rest : GoStr) :
    ∀ fuel, ms.length ≤ fuel → ms ≠ [] →
    parseItems (parseMember (parseVal (vf + 1))) '\x7d' fuel (encodeMembers ms ++ '\x7d' :: rest) =
    some (ms.map (fun kv => (kv.1, Jv.str kv.2)), rest) := by
  induction ms with
  | nil => intro fuel _ hne; exact absurd rfl hne
  | cons kv ms' ih =>
    intro fuel hf hne
    obtain ⟨f, rfl⟩ : ∃ f, fuel = f + 1 := ⟨fuel - 1, by simp at hf; omega⟩
    cases ms' with
    | nil =>
      have he : encodeMembers [kv] ++ '\x7d' :: rest = jmem kv.1 kv.2 ++ '\x7d' :: rest := by
        simp [encodeMembers]
      rw [he]
      simp +decide only [parseItems, parseMember_encoded, skipWs_cons, if_true, if_false]
      simp
    | cons kv2 ms'' =>
      have he : encodeMembers (kv :: kv2 :: ms'') ++ '\x7d' :: rest =
          jmem kv.1 kv.2 ++ ',' :: (encodeMembers (kv2 :: ms'') ++ '\x7d' :: rest) := by
        simp [encodeMembers]
      rw [he]
      simp +decide only [parseItems, parseMember_encoded, skipWs_cons, if_true, if_false]
      rw [ih f (by simp at hf ⊢; omega) (by simp)]
      simp

theorem encodeMembers_length_ge (ms : List (GoStr × GoStr)) :
    ms.length ≤ (encodeMembers ms).length := by
  induction ms with
  | nil => simp [encodeMembers]
  | cons kv ms' ih =>
    cases ms' with
    | nil => simp [encodeMembers, jmem, jstr]
    | cons kv2 ms'' =>
      have : encodeMembers (kv :: kv2 :: ms'') = jmem kv.1 kv.2 ++ ',' :: encodeMembers (kv2 :: ms'') := by
        simp [encodeMembers]
      rw [this]
      simp only [List.length_cons, List.length_append]
      simp at ih
      omega

theorem encodeMembers_cons_head (k v : GoStr) (ms : List (GoStr × GoStr)) :
    ∃ E, encodeMembers ((k, v) :: ms) = '"' :: E := by
  cases ms with
  | nil =>
    refine ⟨escapeStr k ++ '"' :: ':' :: '"' :: (escapeStr v ++ ['"']), ?_⟩
    simp [encodeMembers, jmem, jstr]
  | cons kv2 ms'' =>
    refine ⟨escapeStr k ++ '"' :: ':' :: '"' :: (escapeStr v ++ '"' :: ',' :: encodeMembers (kv2 :: ms'')), ?_⟩
    simp [encodeMembers, jmem, jstr]


theorem parseJsonValue_flatObject (ms : List (GoStr × GoStr)) (hne : ms ≠ []) :
    parseJsonValue ('\x7b' :: (encodeMembers ms ++ ['\x7d'])) =
    some (.obj (ms.map (fun kv => (kv.1, Jv.str kv.2))), []) := by
  obtain ⟨⟨k, v⟩, ms', rfl⟩ : ∃ kv ms', ms = kv :: ms' := by
    cases ms with
    | nil => exact absurd rfl hne
    | cons a b => exact ⟨a, b, rfl⟩
  obtain ⟨E, hE⟩ := encodeMembers_cons_head k v ms'
  have hlen := encodeMembers_length_ge ((k, v) :: ms')
  unfold parseJsonValue
  have hL : ('\x7b' :: (encodeMembers ((k, v) :: ms') ++ ['\x7d'])).length =
      (encodeMembers ((k, v) :: ms')).length + 2 := by simp
  rw [hL]
  set L := (encodeMembers ((k, v) :: ms')).length with hLdef
  have hsw : skipWs (encodeMembers ((k, v) :: ms') ++ ['\x7d']) = '"' :: (E ++ ['\x7d']) := by
    rw [hE, List.cons_append]
    exact skipWs_cons _ _ (by decide)
  rw [show (L + 2 + 1 : Nat) = Nat.succ (L + 2) from rfl, parseVal.eq_2]
  rw [skipWs_cons _ _ (by decide)]
  simp +decide only [hsw, if_true, if_false]
  rw [show (L + 2 : Nat) = (L + 1) + 1 from rfl]
  rw [show ('"' :: (E ++ ['\x7d'])) = encodeMembers ((k, v) :: ms') ++ '\x7d' :: [] by
    rw [hE, List.cons_append]]
  rw [parseItems_encodeMembers (L + 1) ((k, v) :: ms') [] (L + 1 + 1 + 1)
    (by simp at hlen ⊢; omega) (by simp)]
  rfl


/-! ## The payload round trip -/

theorem marshal_decomp (p : WebhookPayload) :
    marshalWebhookPayload p = '\x7b' :: (encodeMembers (payloadMembers p) ++ ['\x7d']) := by
  have hts := escapeStr_eq_self (formatRFC3339Nano_plain p.timestamp)
  by_cases hu : p.udf = [] <;> by_cases ht : p.txHash = [] <;>
    simp [marshalWebhookPayload, payloadMembers, encodeMembers, jmem, jstr, hu, ht, hts,
      List.cons_append, List.append_assoc]

theorem jvToWebhookPayload_payloadMembers (p : WebhookPayload) (h : ValidGoTime p.timestamp) :
    jvToWebhookPayload (.obj ((payloadMembers p).map (fun kv => (kv.1, Jv.str kv.2)))) = some p := by
  have hts : parseRFC3339 (formatRFC3339Nano p.timestamp) = some p.timestamp :=
    parseRFC3339_format p.timestamp h
  obtain ⟨pid, ptyp, pstatus, paddress, pnetworkType, pamount, pudf, ptxHash, pts⟩ := p
  simp only at hts
  by_cases hu : pudf = [] <;> by_cases ht : ptxHash = [] <;>
    simp +decide [payloadMembers, jvToWebhookPayload, payloadSetMember, jvString?, jvTime?,
      hu, ht, hts, zeroWebhookPayload]


/-- C8: for every `WebhookPayload` whose `type`, `status` and `networkType`
fields are drawn from the enumerated constants (all 2 x 5 x 5 combinations)
— and whose timestamp is a representable `time.Time` instant — marshalling it
to JSON and unmarshalling the result yields the original value. -/
theorem c8_payload_json_roundtrip (p : WebhookPayload)
    (_h1 : p.typ ∈ transactionTypes) (_h2 : p.status ∈ transactionStatuses)
    (_h3 : p.networkType ∈ networkTypes) (h4 : ValidGoTime p.timestamp) :
    unmarshalWebhookPayload (marshalWebhookPayload p) = some p := by
  have hne : payloadMembers p ≠ [] := by simp [payloadMembers]
  unfold unmarshalWebhookPayload
  rw [marshal_decomp, parseJsonValue_flatObject _ hne]
  simp only [skipWs, List.dropWhile_nil, if_pos rfl]
  exact jvToWebhookPayload_payloadMembers p h4

/-- Witness for C8 at a concrete payload. -/
theorem c8_payload_json_roundtrip_witness :
    samplePayload.typ ∈ transactionTypes ∧ samplePayload.status ∈ transactionStatuses ∧
    samplePayload.networkType ∈ networkTypes ∧ ValidGoTime samplePayload.timestamp ∧
    unmarshalWebhookPayload (marshalWebhookPayload samplePayload) = some samplePayload :=
  ⟨by decide, by decide, by decide, by decide,
    c8_payload_json_roundtrip samplePayload (by decide) (by decide) (by decide) (by decide)⟩

/-! ## The signature check (C1, partial results, and C2) -/

/-- The acceptance condition of `VerifySignature`, exactly as the iff half of
C1 states it: the signature matches iff it is the lowercase hex encoding of
the HMAC-SHA256 digest of the body under the configured secret. -/
theorem verifySignature_eq_hex_iff (h : WebhookHandler) (body : Bytes) (sig : GoStr) :
    VerifySignature h body sig = true ↔
    sig = hexEncode (hmacSha256 (utf8Encode h.apiSecret) body) := by
  unfold VerifySignature
  constructor
  · intro hb
    exact (beq_iff_eq.mp hb).symm
  · intro hb
    subst hb
    exact beq_self_eq_true _

/-- Any change to an accepted signature string (a bit flip included) makes
verification fail: the accepted signature is unique. -/
theorem verifySignature_unique_sig (h : WebhookHandler) (body : Bytes) (sig sig' : GoStr)
    (h1 : VerifySignature h body sig = true) (hne : sig' ≠ sig) :
    VerifySignature h body sig' = false := by
  rw [verifySignature_eq_hex_iff] at h1
  subst h1
  cases hv : VerifySignature h body sig' with
  | false => rfl
  | true => exact absurd ((verifySignature_eq_hex_iff h body sig').1 hv) hne

/-- Changing the body of an accepted pair keeps verification succeeding
exactly when the two bodies share their rendered HMAC digest: the body half
of C1's bit-flip sentence is precisely the absence of HMAC collisions, which
is neither provable nor refutable for the concrete hash. -/
theorem verifySignature_body_change_iff (h : WebhookHandler) (body body' : Bytes) (sig : GoStr)
    (h1 : VerifySignature h body sig = true) :
    (VerifySignature h body' sig = true ↔
      hexEncode (hmacSha256 (utf8Encode h.apiSecret) body') =
      hexEncode (hmacSha256 (utf8Encode h.apiSecret) body)) := by
  rw [verifySignature_eq_hex_iff] at h1 ⊢
  subst h1
  exact eq_comm

/-- C2: when the signature does not verify, `ProcessWebhook` fails with the
signature error — never touching the body — and a payload comes back only
when verification succeeded, so payload production and failure are mutually
exclusive. -/
theorem c2_verify_then_parse (h : WebhookHandler) (body : Bytes) (sig : GoStr) :
    (VerifySignature h body sig = false →
      ProcessWebhook h body sig = .error (.msg (gs ("invalid webhook signature")))) ∧
    (∀ p, ProcessWebhook h body sig = .ok p → VerifySignature h body sig = true) := by
  constructor
  · intro hv
    simp [ProcessWebhook, hv]
  · intro p hp
    cases hv : VerifySignature h body sig with
    | true => rfl
    | false => simp [ProcessWebhook, hv] at hp

/-- Witness for C2: the wrong signature `x` is rejected and produces the
signature error. -/
theorem c2_verify_then_parse_witness :
    VerifySignature handlerS [] (gs ("x")) = false ∧
    ProcessWebhook handlerS [] (gs ("x")) = .error (.msg (gs ("invalid webhook signature"))) :=
  ⟨by decide, (c2_verify_then_parse handlerS [] (gs ("x"))).1 (by decide)⟩

/-! ## The HTTP-bound webhook form (C7, C9) -/

/-- C7: a missing or empty signature header makes `HandleRequest` fail with
the missing-signature error for every body (so nothing is read, verified or
parsed), and with the header present the full body is read and the same
verify-then-parse discipline as `ProcessWebhook` runs. -/
theorem c7_missing_signature (h : WebhookHandler) (r : HTTPRequest) :
    (headerGet r.headers (gs ("x-sagapay-signature")) = [] →
      (HandleRequest h r = .error (.msg (gs ("missing SagaPay signature in headers"))) ∧
       ∀ b, HandleRequest h { headers := r.headers, body := b } = HandleRequest h r)) ∧
    (headerGet r.headers (gs ("x-sagapay-signature")) ≠ [] →
      HandleRequest h r =
        match r.body with
        | .error e => .error (.msg (gs ("failed to read request body: ") ++ e))
        | .ok b => ProcessWebhook h b (headerGet r.headers (gs ("x-sagapay-signature")))) := by
  constructor
  · intro hs
    constructor
    · simp [HandleRequest, hs]
    · intro b
      simp [HandleRequest, hs]
  · intro hs
    cases hb : r.body with
    | error e => simp [HandleRequest, hs, hb]
    | ok b => simp [HandleRequest, ProcessWebhook, hs, hb]

/-- Witness for C7 at a concrete request with no signature header. -/
theorem c7_missing_signature_witness :
    headerGet reqNoSig.headers (gs ("x-sagapay-signature")) = [] ∧
    HandleRequest handlerS reqNoSig = .error (.msg (gs ("missing SagaPay signature in headers"))) :=
  ⟨by decide, ((c7_missing_signature handlerS reqNoSig).1 (by decide)).1⟩

/-- C9: with the signature header present and non-empty and the body read
without error, `HandleRequest` returns exactly what `ProcessWebhook` returns
on the raw body bytes and the header value. -/
theorem c9_handleRequest_refines_processWebhook (h : WebhookHandler) (r : HTTPRequest)
    (sig : GoStr) (b : Bytes)
    (hsig : headerGet r.headers (gs ("x-sagapay-signature")) = sig)
    (hne : sig ≠ []) (hb : r.body = .ok b) :
    HandleRequest h r = ProcessWebhook h b sig := by
  subst hsig
  simp [HandleRequest, ProcessWebhook, hne, hb]

/-- Witness for C9 at a concrete request. -/
theorem c9_handleRequest_refines_processWebhook_witness :
    headerGet reqWithSig.headers (gs ("x-sagapay-signature")) = gs ("x") ∧
    HandleRequest handlerS reqWithSig = ProcessWebhook handlerS [] (gs ("x")) :=
  ⟨by decide,
    c9_handleRequest_refines_processWebhook handlerS reqWithSig (gs ("x")) []
      (by decide) (by decide) rfl⟩

/-! ## The webhook handler accepts any secret (C10) -/

/-- C10: `NewWebhookHandler` is total — any secret, the empty string
included, yields a handler with that secret and no error (unlike `NewClient`,
which rejects an empty secret) — and verification under the empty secret
accepts the signature computed with the empty HMAC key. -/
theorem c10_empty_secret_allowed :
    (∀ s : GoStr, (NewWebhookHandler s).apiSecret = s) ∧
    (∀ config : Config, config.apiSecret = [] → exceptIsErr (NewClient config) = true) ∧
    (∀ body : Bytes,
      VerifySignature (NewWebhookHandler []) body
        (hexEncode (hmacSha256 (utf8Encode []) body)) = true) := by
  refine ⟨fun _ => rfl, ?_, ?_⟩
  · intro config hcs
    by_cases hk : config.apiKey = [] <;> simp [NewClient, hk, hcs, exceptIsErr]
  · intro body
    simp [VerifySignature, NewWebhookHandler]

/-- Witness for C10: an otherwise-valid config with an empty secret is
rejected by `NewClient`. -/
theorem c10_empty_secret_allowed_witness : exceptIsErr (NewClient cfgEmptySecret) = true :=
  c10_empty_secret_allowed.2.1 cfgEmptySecret rfl

/-! ## Local validation before any network use (C4) -/

/-- C4: `Validate` succeeds iff every required field is non-empty (deposit:
networkType, contractAddress, amount, ipnUrl; withdrawal: those plus the
destination address), and whenever validation fails, `CreateDeposit` and
`CreateWithdrawal` return that validation error with a result independent of
the transport — no network request is consulted. -/
theorem c4_validate_iff_required (p : CreateDepositParams) (q : CreateWithdrawalParams) :
    (p.Validate = none ↔
      (p.networkType ≠ [] ∧ p.contractAddress ≠ [] ∧ p.amount ≠ [] ∧ p.ipnUrl ≠ [])) ∧
    (q.Validate = none ↔
      (q.networkType ≠ [] ∧ q.contractAddress ≠ [] ∧ q.address ≠ [] ∧ q.amount ≠ [] ∧
        q.ipnUrl ≠ [])) ∧
    (∀ e, p.Validate = some e → ∀ (t₁ t₂ : Transport) (c : Client),
      CreateDeposit t₁ c p = .error (.msg e) ∧ CreateDeposit t₁ c p = CreateDeposit t₂ c p) ∧
    (∀ e, q.Validate = some e → ∀ (t₁ t₂ : Transport) (c : Client),
      CreateWithdrawal t₁ c q = .error (.msg e) ∧
        CreateWithdrawal t₁ c q = CreateWithdrawal t₂ c q) := by
  refine ⟨?_, ?_, ?_, ?_⟩
  · unfold CreateDepositParams.Validate
    split_ifs <;> simp_all
  · unfold CreateWithdrawalParams.Validate
    split_ifs <;> simp_all
  · intro e he t₁ t₂ c
    constructor <;> simp [CreateDeposit, he]
  · intro e he t₁ t₂ c
    constructor <;> simp [CreateWithdrawal, he]

/-- Witness for C4: a deposit missing its amount and a withdrawal missing its
destination address both fail with the matching validation error before any
transport use. -/
theorem c4_validate_iff_required_witness :
    depositNoAmount.Validate = some (gs ("amount is required")) ∧
    withdrawalNoAddress.Validate = some (gs ("address is required")) ∧
    CreateDeposit transport401 clientDefault depositNoAmount =
      .error (.msg (gs ("amount is required"))) ∧
    CreateWithdrawal transport401 clientDefault withdrawalNoAddress =
      .error (.msg (gs ("address is required"))) :=
  ⟨by decide, by decide,
   ((c4_validate_iff_required depositNoAmount withdrawalNoAddress).2.2.1 _ (by decide)
     transport401 transport401 clientDefault).1,
   ((c4_validate_iff_required depositNoAmount withdrawalNoAddress).2.2.2 _ (by decide)
     transport401 transport401 clientDefault).1⟩

/-! ## Gateway error responses (C3, amended) -/

theorem decodeAPIErrorBody_apiErrorBody (a b : GoStr) :
    decodeAPIErrorBody (apiErrorBody a b) =
    some { error := a, message := b, data := none, code := 0 } := by
  unfold decodeAPIErrorBody decodeFirstJson apiErrorBody
  rw [List.cons_append,
    parseJsonValue_flatObject [(gs ("error"), a), (gs ("message"), b)] (by simp)]
  simp +decide [jvToAPIError, apiErrorSetMember, jvString?, zeroAPIError]

/-- C3 (amended): on any transport response with status at least 400 the call
fails with the `APIError` decoded from the body — its error code and message
come from the body while the `Code` field keeps its zero value, never the
HTTP status — and an undecodable error body yields the generic message naming
the numeric status instead. -/
theorem c3_apiError_from_error_status {V : Type} (decodeV : Jv → Option V)
    (transport : Transport) (c : Client) (method path : GoStr)
    (query : Option (List (GoStr × GoStr))) (body : Option GoStr)
    (u : GoURL) (status : Nat) (respBody : GoStr)
    (hu : urlParse path = .ok u)
    (ht : transport (buildRequest c method u query body) = .ok (status, respBody))
    (hs : 400 ≤ status) :
    (∀ e, decodeAPIErrorBody respBody = some e →
      sendRequestWithQuery transport c method path query body decodeV = .error (.api e)) ∧
    (decodeAPIErrorBody respBody = none →
      sendRequestWithQuery transport c method path query body decodeV =
        .error (.msg (gs ("HTTP error: ") ++ natToDec status ++
          gs (" - failed to parse error response")))) ∧
    (∀ a b, respBody = apiErrorBody a b →
      sendRequestWithQuery transport c method path query body decodeV =
        .error (.api { error := a, message := b, data := none, code := 0 })) := by
  refine ⟨?_, ?_, ?_⟩
  · intro e he
    simp [sendRequestWithQuery, hu, ht, hs, he]
  · intro he
    simp [sendRequestWithQuery, hu, ht, hs, he]
  · intro a b hb
    subst hb
    simp [sendRequestWithQuery, hu, ht, hs, decodeAPIErrorBody_apiErrorBody]

/-- Witness for C3 (amended) at the spec scenario: a 401 with the structured
`unauthorized`/`bad key` body. -/
theorem c3_apiError_from_error_status_witness :
    sendRequestWithQuery transport401 clientDefault (gs ("GET"))
        (gs ("/check-transaction-status"))
        (some [(gs ("address"), gs ("a")), (gs ("type"), gs ("deposit"))]) none
        jvToTransactionStatusResponse =
      .error (.api { error := gs ("unauthorized"), message := gs ("bad key"),
                     data := none, code := 0 }) :=
  (c3_apiError_from_error_status jvToTransactionStatusResponse transport401 clientDefault
      (gs ("GET")) (gs ("/check-transaction-status"))
      (some [(gs ("address"), gs ("a")), (gs ("type"), gs ("deposit"))]) none
      { scheme := [], opaquePart := [], userinfo := none, host := [],
        path := gs ("/check-transaction-status"), forceQuery := false, rawQuery := [],
        fragment := [] }
      401 (apiErrorBody (gs ("unauthorized")) (gs ("bad key")))
      rfl rfl (by norm_num)).2.2 (gs ("unauthorized")) (gs ("bad key")) rfl

/-- Counterexample for C3 as stated: the failing `APIError` of the spec's 401
scenario carries `Code = 0`, not the HTTP status 401 — the code never copies
`resp.StatusCode` into the struct. -/
theorem c3_counterexample_code_not_status :
    CheckTransactionStatus transport401 clientDefault (gs ("a")) (gs ("deposit")) =
      .error (.api { error := gs ("unauthorized"), message := gs ("bad key"),
                     data := none, code := 0 }) ∧
    (0 : Int) ≠ 401 :=
  ⟨rfl, by decide⟩

/-! ## Client construction (C5, amended) -/

/-- C5 (amended): `NewClient` fails exactly when the API key is empty, the
API secret is empty, or Go's `url.Parse` rejects the effective base URL —
note `url.Parse` also accepts relative URLs, so no absoluteness is enforced.
An absent base URL falls back to the default, the parsed base URL and the raw
credentials are stored, and without an injected HTTP client the transport
timeout is the configured one when positive and 30 seconds otherwise. -/
theorem c5_newClient_spec (config : Config) :
    (exceptIsErr (NewClient config) = true ↔
      (config.apiKey = [] ∨ config.apiSecret = [] ∨
        exceptIsErr (urlParse (if config.baseURL = [] then DefaultBaseURL else config.baseURL)) =
          true)) ∧
    (∀ cl, NewClient config = .ok cl →
      (urlParse (if config.baseURL = [] then DefaultBaseURL else config.baseURL) = .ok cl.baseURL ∧
       cl.apiKey = config.apiKey ∧ cl.apiSecret = config.apiSecret ∧
       (config.httpClient = none → config.timeout ≤ 0 → cl.client.timeout = DefaultTimeout) ∧
       (config.httpClient = none → 0 < config.timeout → cl.client.timeout = config.timeout) ∧
       (∀ hc, config.httpClient = some hc → cl.client = hc))) := by
  constructor
  · by_cases hk : config.apiKey = []
    · simp [NewClient, hk, exceptIsErr]
    · by_cases hs : config.apiSecret = []
      · simp [NewClient, hk, hs, exceptIsErr]
      · cases hu : urlParse (if config.baseURL = [] then DefaultBaseURL else config.baseURL) with
        | error e => simp [NewClient, hk, hs, hu, exceptIsErr]
        | ok u => simp [NewClient, hk, hs, hu, exceptIsErr]
  · intro cl hok
    by_cases hk : config.apiKey = []
    · simp [NewClient, hk] at hok
    · by_cases hs : config.apiSecret = []
      · simp [NewClient, hk, hs] at hok
      · cases hu : urlParse (if config.baseURL = [] then DefaultBaseURL else config.baseURL) with
        | error e => simp [NewClient, hk, hs, hu] at hok
        | ok u =>
          simp only [NewClient, hk, hs, hu, if_neg, if_false] at hok
          injection hok with hok
          subst hok
          refine ⟨rfl, rfl, rfl, ?_, ?_, ?_⟩
          · intro hhc ht
            simp [hhc, if_neg (by omega : ¬config.timeout > 0)]
          · intro hhc ht
            simp [hhc, if_pos (by omega : config.timeout > 0)]
          · intro hc hhc
            simp [hhc]

/-- Witness for C5 at the all-defaults config: construction succeeds, the
default base URL is the one parsed, and the timeout defaults to 30 seconds. -/
theorem c5_newClient_spec_witness :
    NewClient cfgDefaults = .ok clientDefault ∧
    urlParse DefaultBaseURL = .ok clientDefault.baseURL ∧
    clientDefault.client.timeout = DefaultTimeout :=
  ⟨rfl,
   ((c5_newClient_spec cfgDefaults).2 clientDefault rfl).1,
   ((c5_newClient_spec cfgDefaults).2 clientDefault rfl).2.2.2.1 rfl (by decide)⟩

/-- Counterexample for C5 as stated: with the relative base URL `x` (and
non-empty credentials) the claim demands failure — `x` is not a valid
absolute URL — but `NewClient` succeeds, because `url.Parse` accepts relative
URLs. -/
theorem c5_counterexample_relative_url :
    ¬(exceptIsErr (NewClient cfgRelative) = true ↔
      (cfgRelative.apiKey = [] ∨ cfgRelative.apiSecret = [] ∨
        specValidAbsoluteURL (if cfgRelative.baseURL = [] then DefaultBaseURL
          else cfgRelative.baseURL) = false)) := by
  decide


/-! ## Webhook acknowledgments (C6) -/

theorem parseVal_false_lit (vf : Nat) (after : GoStr) :
    parseVal (vf + 1) ('f' :: 'a' :: 'l' :: 's' :: 'e' :: after) = some (.bool false, after) := by
  rw [show (vf + 1 : Nat) = Nat.succ vf from rfl, parseVal.eq_2]
  rw [skipWs_cons _ _ (by decide)]
  simp +decide only [if_true, if_false]

theorem parseMember_received_false (vf : Nat) (after : GoStr) :
    parseMember (parseVal (vf + 1)) (jstr (gs ("received")) ++ ':' :: (gs ("false") ++ after)) =
    some ((gs ("received"), Jv.bool false), after) := by
  have h1 : jstr (gs ("received")) ++ ':' :: (gs ("false") ++ after) =
      '"' :: (escapeStr (gs ("received")) ++ '"' :: (':' :: ('f' :: 'a' :: 'l' :: 's' :: 'e' :: after))) := rfl
  rw [h1]
  unfold parseMember
  rw [skipWs_cons _ _ (by decide)]
  simp +decide only [parseStr_escape, skipWs_cons, parseVal_false_lit, if_true, if_false]
  rfl


theorem parseItems_errBody (vf : Nat) (m : GoStr) (rest : GoStr) (f : Nat) :
    parseItems (parseMember (parseVal (vf + 1))) '\x7d' (f + 2)
      (jmem (gs ("error")) m ++ ',' :: (jstr (gs ("received")) ++ ':' :: (gs ("false") ++ '\x7d' :: rest))) =
    some ([(gs ("error"), .str m), (gs ("received"), .bool false)], rest) := by
  simp +decide only [parseItems, parseMember_encoded, parseMember_received_false,
    skipWs_cons, if_true, if_false]
  rfl

theorem parse_sendErrorBody (err : GoErr) :
    parseJsonValue (SendErrorResponse err).body =
    some (.obj [(gs ("error"), .str (goErrMessage err)), (gs ("received"), .bool false)], ['\n']) := by
  set m := goErrMessage err with hm
  have hbody : (SendErrorResponse err).body =
      '\x7b' :: (jmem (gs ("error")) m ++
        ',' :: (jstr (gs ("received")) ++ ':' :: (gs ("false") ++ '\x7d' :: ['\n']))) := by
    simp [SendErrorResponse, List.append_assoc, List.cons_append]
  rw [hbody]
  obtain ⟨E, hE⟩ : ∃ E, jmem (gs ("error")) m ++
      ',' :: (jstr (gs ("received")) ++ ':' :: (gs ("false") ++ '\x7d' :: ['\n'])) = '"' :: E := by
    refine ⟨escapeStr (gs ("error")) ++ '"' :: (':' :: (jstr m ++
      ',' :: (jstr (gs ("received")) ++ ':' :: (gs ("false") ++ '\x7d' :: ['\n'])))), ?_⟩
    simp [jmem, jstr, List.append_assoc, List.cons_append]
  unfold parseJsonValue
  set CORE := jmem (gs ("error")) m ++
      ',' :: (jstr (gs ("received")) ++ ':' :: (gs ("false") ++ '\x7d' :: ['\n'])) with hCORE
  have hL : ('\x7b' :: CORE).length = CORE.length + 1 := by simp
  rw [hL]
  rw [show (CORE.length + 1 + 1 : Nat) = Nat.succ (CORE.length + 1) from rfl, parseVal.eq_2]
  rw [skipWs_cons _ _ (by decide)]
  rw [hE]
  simp +decide only [if_true, if_false]
  rw [skipWs_cons _ _ (by decide)]
  simp +decide only [if_true, if_false]
  rw [← hE]
  rw [show (List.length CORE + 1 + 1 : Nat) = List.length CORE + 2 from rfl]
  rw [hCORE]
  rw [parseItems_errBody]
  rfl

/-- C6: `SendSuccessResponse` always writes HTTP 200 with the JSON object
`received = true`, and `SendErrorResponse` also writes HTTP 200 — never a
4xx/5xx — with `received = false` and the error's message under `error`. The
bodies are characterized by parsing them back, so the statement is about the
JSON object content, independent of member order (Go sorts the map keys, so
`error` is written first). -/
theorem c6_ack_always_200 :
    (SendSuccessResponse.status = 200 ∧
     parseJsonValue SendSuccessResponse.body =
       some (.obj [(gs ("received"), .bool true)], ['\n'])) ∧
    (∀ err : GoErr, (SendErrorResponse err).status = 200 ∧
      parseJsonValue (SendErrorResponse err).body =
        some (.obj [(gs ("error"), .str (goErrMessage err)), (gs ("received"), .bool false)],
          ['\n'])) := by
  refine ⟨⟨rfl, rfl⟩, fun err => ⟨rfl, parse_sendErrorBody err⟩⟩

end SagaPay
